import Mathlib

/-!
Verification of the claude-tracker log ingestion pipeline.

The Rust sources (`parser.rs`, `cursor_parser.rs`, `scanner.rs`, `format.rs`)
are shallowly embedded below.  Rust `String`/`&str` values are modelled as
`List Char` (UTF-8 code points; byte-sensitive operations such as `len()` and
`truncate()` are modelled at the byte level via `Char.utf8Size`).  Rust `f64`
values are modelled as `ℚ`; `u64` as `ℕ`.  `HashMap` is modelled as an
association list whose `insert`/`entry` operations replace in place, and whose
(unspecified) iteration order is made explicit as a function parameter where
the source relies on it.  Panics are modelled by `Option`.
-/

/-- Rust strings, modelled as their list of code points. -/
abbrev Str := List Char

/-- The string literal `s` as a `Str`. -/
def str (s : String) : Str := s.data

/-- UTF-8 byte length of a string (Rust `str::len`). -/
def utf8Len (s : Str) : Nat := s.foldl (fun n c => n + c.utf8Size) 0

/-- Byte-wise lexicographic comparison (Rust `str::cmp`, `≤` direction).
On valid code-point sequences the UTF-8 byte order coincides with the
code-point order used here. -/
def strLe : Str → Str → Bool
  | [], _ => true
  | _ :: _, [] => false
  | c :: cs, d :: ds => if c < d then true else if d < c then false else strLe cs ds

/-- Strict version of `strLe`. -/
def strLt (a b : Str) : Bool := strLe a b && !(strLe b a)

/-- Rust `char::is_whitespace`, restricted to the ASCII whitespace that the
inputs of interest contain. -/
def isWs (c : Char) : Bool := c = ' ' || c = '\t' || c = '\n' || c = '\r'

/-- Rust `str::trim`. -/
def rustTrim (s : Str) : Str := ((s.dropWhile isWs).reverse.dropWhile isWs).reverse

/-- Number of lines reported by Rust `str::lines().count()`:
newline-separated segments, without a final empty segment. -/
def rustLineCount (s : Str) : Nat :=
  if s = [] then 0
  else s.count '\n' + (if s.getLast? = some '\n' then 0 else 1)

/-- Word count as by Rust `str::split_whitespace().count()`. -/
def wordCountAux : Bool → Str → Nat
  | _, [] => 0
  | inWord, c :: cs =>
    if isWs c then wordCountAux false cs
    else if inWord then wordCountAux true cs
    else 1 + wordCountAux true cs

/-- Rust `str::split_whitespace().count()`. -/
def wordCount (s : Str) : Nat := wordCountAux false s

/-- The words of a string (Rust `split_whitespace()`), for `collect::<Vec<_>>().join(" ")`. -/
def splitWsAux : Str → Str → List Str
  | current, [] => if current = [] then [] else [current.reverse]
  | current, c :: cs =>
    if isWs c then
      if current = [] then splitWsAux [] cs else current.reverse :: splitWsAux [] cs
    else splitWsAux (c :: current) cs

/-- Rust `s.split_whitespace().collect::<Vec<_>>().join(" ")`. -/
def squashWs (s : Str) : Str := (splitWsAux [] s).intersperse (str " ") |>.flatten

/-- Rust `bool`-returning prefix test: is `p` a prefix of `s`? -/
def isPrefixB : Str → Str → Bool
  | [], _ => true
  | _ :: _, [] => false
  | c :: cs, d :: ds => c = d && isPrefixB cs ds

/-- Rust `str::contains` with a string pattern. -/
def containsSub : Str → Str → Bool
  | hay, pat =>
    isPrefixB pat hay ||
      match hay with
      | [] => false
      | _ :: t => containsSub t pat

/-- ASCII lowercasing of one character (the model strings of interest are
ASCII; Rust uses full `str::to_lowercase`). -/
def chLower (c : Char) : Char :=
  if 'A' ≤ c ∧ c ≤ 'Z' then Char.ofNat (c.toNat + 32) else c

/-- Rust `str::to_lowercase` on ASCII strings. -/
def toLowerStr (s : Str) : Str := s.map chLower

/-- Rust `str::trim_end_matches('/')`. -/
def trimEndSlashes (s : Str) : Str := (s.reverse.dropWhile (· = '/')).reverse

/-- Decimal representation of a natural number, as a `Str`. -/
def natToStr (n : Nat) : Str := (Nat.repr n).data

/-- Rust `String::truncate(n)`: keep the longest prefix of byte length `≤ n`.
Returns `none` (modelling the Rust panic) when the string is longer than `n`
bytes but byte index `n` is not a character boundary. -/
def takeBytes : Str → Nat → Option Str
  | _, 0 => some []
  | [], _ + 1 => some []
  | c :: cs, n + 1 =>
    if c.utf8Size ≤ n + 1 then (takeBytes cs (n + 1 - c.utf8Size)).map (c :: ·)
    else none

-- the `HashMap` association-list model -------------------------------------

/-- `HashMap::insert`: replace the value at an existing key in place,
otherwise append a fresh entry. -/
def assocInsert (m : List (Str × α)) (k : Str) (v : α) : List (Str × α) :=
  if m.any (fun kv => kv.1 = k) then m.map (fun kv => if kv.1 = k then (k, v) else kv)
  else m ++ [(k, v)]

-- data model (models.rs, as used by the parsers) ----------------------------

/-- Origin of a session (`DataSource`). -/
inductive DataSource where
  | Claude
  | Cursor
deriving DecidableEq, Repr

/-- Per-event token usage (`TokenUsage`). -/
structure TokenUsage where
  input_tokens : Option Nat
  output_tokens : Option Nat
  cache_read_input_tokens : Option Nat
  cache_creation_input_tokens : Option Nat
deriving DecidableEq, Repr

/-- Accumulated token totals (`TokenTotals`). -/
structure TokenTotals where
  input : Nat
  output : Nat
  cache_read : Nat
  cache_creation : Nat
deriving DecidableEq, Repr

/-- `TokenTotals::zero()`. -/
def TokenTotals.zero : TokenTotals := ⟨0, 0, 0, 0⟩

/-- Per-file line contribution (`FileContribution`). -/
structure FileContribution where
  added : Nat
  removed : Nat
deriving DecidableEq, Repr

/-- One entry of a session's message list (`ConversationMessage`). -/
structure ConversationMessage where
  role : Str
  timestamp : Str
  uuid : Str
  usage : Option TokenUsage
  content : Str
deriving DecidableEq, Repr

/-- The canonical session value (`ParsedSession`). -/
structure ParsedSession where
  session_id : Str
  project_id : Str
  cwd : Str
  messages : List ConversationMessage
  tool_usage : List (Str × Nat)
  total_tokens : TokenTotals
  duration_ms : ℚ
  lines_added : Nat
  lines_removed : Nat
  file_contributions : List (Str × FileContribution)
  first_prompt : Str
  started_at : Str
  last_active : Str
  human_lines : Nat
  human_words : Nat
  human_chars : Nat
  model : Str
  source : DataSource
deriving DecidableEq, Repr

-- format.rs -----------------------------------------------------------------

/-- API pricing per million tokens, `[input, output, cache_read]`
(`model_pricing`). -/
def model_pricing (model : Str) : ℚ × ℚ × ℚ :=
  let m := toLowerStr model
  if containsSub m (str "opus") then (15, 75, 1.5)
  else if containsSub m (str "haiku") then (0.8, 4, 0.08)
  else (3, 15, 0.3)

/-- `estimate_cost` from `format.rs` (f64 arithmetic modelled exactly in ℚ). -/
def estimate_cost (model : Str) (input_tokens output_tokens cache_read_tokens : Nat) : ℚ :=
  let p := model_pricing model
  let non_cache_input : Nat :=
    if input_tokens > cache_read_tokens then input_tokens - cache_read_tokens else 0
  ((non_cache_input : ℚ) * p.1 + (output_tokens : ℚ) * p.2.1
      + (cache_read_tokens : ℚ) * p.2.2) / 1000000

-- cursor_parser.rs: timestamp resolution ------------------------------------

/-- `resolve_timestamp` from `cursor_parser.rs`. -/
def resolve_timestamp (raw : Option ℚ) (base_epoch_ms : ℚ) : Option ℚ :=
  match raw with
  | none => none
  | some val =>
    if val ≤ 0 then none
    else if val > 1000000000000 then some val
    else if base_epoch_ms > 0 then some (base_epoch_ms + val)
    else none

-- parser.rs: raw JSONL event model ------------------------------------------

/-- The fields of `input` that the tool-use scan reads
(`block.get("input").get(...)`, each `None` when absent or not a string). -/
structure BlockInput where
  content : Option Str
  file_path : Option Str
  old_string : Option Str
  new_string : Option Str
deriving DecidableEq, Repr

/-- One element of a structured-content array, restricted to the fields the
parser reads (`type`, `text`, `name`, `input`). -/
structure ContentBlock where
  btype : Option Str
  text : Option Str
  name : Option Str
  input : Option BlockInput
deriving DecidableEq, Repr

/-- `message.content`: a plain string, an array of typed blocks, or any other
JSON value (which every accessor treats as absent). -/
inductive MessageContent where
  | strVal : Str → MessageContent
  | arr : List ContentBlock → MessageContent
  | other : MessageContent
deriving DecidableEq, Repr

/-- `RawMessage` from models.rs. -/
structure RawMessage where
  role : Str
  content : MessageContent
  model : Option Str
  id : Option Str
  usage : Option TokenUsage
deriving DecidableEq, Repr

/-- `RawEvent` from models.rs (post-JSON-decode; a line that fails to decode
is dropped by the source and is therefore not represented). -/
structure RawEvent where
  event_type : Str
  subtype : Option Str
  session_id : Option Str
  cwd : Option Str
  uuid : Option Str
  timestamp : Option Str
  message : Option RawMessage
  duration_ms : Option ℚ
deriving DecidableEq, Repr

/-- `SKIP_TYPES` from parser.rs. -/
def SKIP_TYPES : List Str := [str "progress", str "queue-operation", str "file-history-snapshot"]

/-- `extract_text`: first text block as a single whitespace-squashed line. -/
def extract_text : MessageContent → Str
  | .strVal s => squashWs s
  | .arr blocks =>
    match blocks.find? (fun b => b.btype = some (str "text") ∧ b.text.isSome) with
    | some b => squashWs (b.text.getD [])
    | none => []
  | .other => []

/-- `extract_raw_text`: all text blocks joined with newlines. -/
def extract_raw_text : MessageContent → Str
  | .strVal s => s
  | .arr blocks =>
    ((blocks.filterMap fun b =>
        if b.btype = some (str "text") then b.text else none).intersperse
      (str "\n")).flatten
  | .other => []

/-- `strip_html`, the character scan with an `in_tag` flag. -/
def stripHtmlAux : Bool → Str → Str
  | _, [] => []
  | inTag, c :: cs =>
    if c = '<' then stripHtmlAux true cs
    else if c = '>' then stripHtmlAux false cs
    else if inTag then stripHtmlAux true cs
    else c :: stripHtmlAux false cs

/-- `strip_html` from parser.rs. -/
def strip_html (s : Str) : Str := stripHtmlAux false s

/-- The assistant-content truncation step:
`if content.len() > 5000 { content.truncate(5000); content.push_str("...") }`.
`none` models the `String::truncate` panic at a non-boundary byte index. -/
def truncateContent (s : Str) : Option Str :=
  if utf8Len s > 5000 then (takeBytes s 5000).map (· ++ str "...")
  else some s

-- parser.rs: first pass over the records ------------------------------------

/-- State of the first pass of `parse_session_file`. -/
structure ScanAcc where
  user_events : List (RawEvent × Str)
  assistant_by_id : List (Str × (RawEvent × Str))
  assistant_no_id : List (RawEvent × Str)
  duration_ms : ℚ
  cwd : Str
  started_at : Str
  last_active : Str
deriving Repr

/-- Initial first-pass state. -/
def scanInit : ScanAcc := ⟨[], [], [], 0, [], [], []⟩

/-- The `event_type == "assistant"` branch of the first pass. -/
def checkAssistant (acc : ScanAcc) (e : RawEvent) (ts : Str) : ScanAcc :=
  if e.event_type = str "assistant" then
    match e.message with
    | some m =>
      if m.role = str "assistant" then
        match m.id with
        | some i => { acc with assistant_by_id := assocInsert acc.assistant_by_id i (e, ts) }
        | none => { acc with assistant_no_id := acc.assistant_no_id ++ [(e, ts)] }
      else acc
    | none => acc
  else acc

/-- The first-`cwd` capture of the first pass. -/
def scanCwd (acc : ScanAcc) (e : RawEvent) : ScanAcc :=
  if acc.cwd = [] then
    match e.cwd with
    | some c => { acc with cwd := c }
    | none => acc
  else acc

/-- The `started_at`/`last_active` capture of the first pass. -/
def scanTs (acc : ScanAcc) (ts : Str) : ScanAcc :=
  if ts ≠ [] then
    { acc with
      started_at := if acc.started_at = [] then ts else acc.started_at,
      last_active := ts }
  else acc

/-- One iteration of the first loop of `parse_session_file`. -/
def scanStep (acc : ScanAcc) (e : RawEvent) : ScanAcc :=
  if SKIP_TYPES.contains e.event_type then acc
  else
    let acc := scanCwd acc e
    let ts := e.timestamp.getD []
    let acc := scanTs acc ts
    if e.event_type = str "system" then
      if e.subtype = some (str "turn_duration") then
        match e.duration_ms with
        | some d => { acc with duration_ms := acc.duration_ms + d }
        | none => acc
      else acc
    else
      if e.event_type = str "user" then
        match e.message with
        | some m =>
          if m.role = str "user" then { acc with user_events := acc.user_events ++ [(e, ts)] }
          else checkAssistant acc e ts
        | none => checkAssistant acc e ts
      else checkAssistant acc e ts

-- parser.rs: second pass over the merged, sorted records ---------------------

/-- Tag distinguishing the partition an event came from (`TaggedEvent.kind`). -/
inductive EvKind where
  | user
  | assistant
deriving DecidableEq, Repr

/-- `TaggedEvent` from parser.rs. -/
structure TaggedEvent where
  kind : EvKind
  event : RawEvent
  ts : Str
deriving DecidableEq, Repr

/-- State of the second pass (`messages`, counters, contributions). -/
structure BuildAcc where
  messages : List ConversationMessage
  tool_usage : List (Str × Nat)
  tokens : TokenTotals
  lines_added : Nat
  lines_removed : Nat
  file_contributions : List (Str × FileContribution)
  first_prompt : Str
  human_lines : Nat
  human_words : Nat
  human_chars : Nat
  model : Str
deriving Repr

/-- Initial second-pass state. -/
def buildInit : BuildAcc := ⟨[], [], .zero, 0, 0, [], [], 0, 0, 0, []⟩

/-- `*tool_usage.entry(name).or_insert(0) += 1`. -/
def bumpTool (m : List (Str × Nat)) (name : Str) : List (Str × Nat) :=
  if m.any (fun kv => kv.1 = name) then
    m.map (fun kv => if kv.1 = name then (kv.1, kv.2 + 1) else kv)
  else m ++ [(name, 1)]

/-- `file_contributions.entry(fp).or_insert(zero)` then `added += da; removed += dr`. -/
def bumpContribution (m : List (Str × FileContribution)) (fp : Str) (da dr : Nat) :
    List (Str × FileContribution) :=
  if m.any (fun kv => kv.1 = fp) then
    m.map (fun kv => if kv.1 = fp then (kv.1, ⟨kv.2.added + da, kv.2.removed + dr⟩) else kv)
  else m ++ [(fp, ⟨da, dr⟩)]

/-- The per-block body of the tool-use scan in parser.rs. -/
def blockStep (acc : BuildAcc) (block : ContentBlock) : BuildAcc :=
  if block.btype.getD [] ≠ str "tool_use" then acc
  else
    match block.name with
    | none => acc
    | some name =>
      let acc := { acc with tool_usage := bumpTool acc.tool_usage name }
      let acc :=
        if name = str "Write" then
          match block.input >>= (·.content) with
          | some content =>
            let lines := rustLineCount content
            let acc := { acc with lines_added := acc.lines_added + lines }
            match block.input >>= (·.file_path) with
            | some fp =>
              { acc with file_contributions := bumpContribution acc.file_contributions fp lines 0 }
            | none => acc
          | none => acc
        else acc
      if name = str "Edit" then
        match block.input with
        | some input =>
          let old_str := input.old_string.getD []
          let new_str := input.new_string.getD []
          let old_lines := if old_str = [] then 0 else rustLineCount old_str
          let new_lines := if new_str = [] then 0 else rustLineCount new_str
          let acc := { acc with
            lines_removed := acc.lines_removed + old_lines,
            lines_added := acc.lines_added + new_lines }
          match input.file_path with
          | some fp =>
            { acc with
              file_contributions := bumpContribution acc.file_contributions fp new_lines old_lines }
          | none => acc
        | none => acc
      else acc

/-- The user branch of the second loop of `parse_session_file`. -/
def claudeUserStep (acc : BuildAcc) (t : TaggedEvent) (msg : RawMessage) : BuildAcc :=
  let user_text := extract_text msg.content
  let acc := if acc.first_prompt = [] then { acc with first_prompt := user_text } else acc
  let raw_text := extract_raw_text msg.content
  let stripped := rustTrim (strip_html raw_text)
  let acc :=
    if stripped ≠ [] then
      { acc with
        human_lines := acc.human_lines + rustLineCount stripped,
        human_words := acc.human_words + wordCount stripped,
        human_chars := acc.human_chars + utf8Len stripped }
    else acc
  let content := strip_html (extract_raw_text msg.content)
  { acc with messages := acc.messages ++
    [⟨str "user", t.ts, t.event.uuid.getD [], none, rustTrim content⟩] }

/-- The first-non-empty `model` capture of the assistant branch. -/
def claudeModelUpdate (acc : BuildAcc) (mdl : Option Str) : BuildAcc :=
  if acc.model = [] then
    match mdl with
    | some m => { acc with model := m }
    | none => acc
  else acc

/-- The per-event token accumulation of the assistant branch (all four fields
by sum). -/
def claudeTokensUpdate (acc : BuildAcc) (usage : Option TokenUsage) : BuildAcc :=
  match usage with
  | some usage =>
    { acc with tokens :=
      ⟨acc.tokens.input + usage.input_tokens.getD 0,
       acc.tokens.output + usage.output_tokens.getD 0,
       acc.tokens.cache_read + usage.cache_read_input_tokens.getD 0,
       acc.tokens.cache_creation + usage.cache_creation_input_tokens.getD 0⟩ }
  | none => acc

/-- The tool-use scan of the assistant branch (structured content only). -/
def claudeBlocksUpdate (acc : BuildAcc) (content : MessageContent) : BuildAcc :=
  match content with
  | .arr blocks => blocks.foldl blockStep acc
  | _ => acc

/-- The assistant branch of the second loop of `parse_session_file`;
`none` models the truncation panic. -/
def claudeAssistantStep (acc : BuildAcc) (t : TaggedEvent) (msg : RawMessage) : Option BuildAcc :=
  let raw_content := extract_raw_text msg.content
  match truncateContent (strip_html raw_content) with
  | none => none
  | some content =>
    let acc := { acc with messages := acc.messages ++
      [⟨str "assistant", t.ts, t.event.uuid.getD [], msg.usage, rustTrim content⟩] }
    let acc := claudeModelUpdate acc msg.model
    let acc := claudeTokensUpdate acc msg.usage
    some (claudeBlocksUpdate acc msg.content)

/-- One iteration of the second loop of `parse_session_file`; `none` models a
panic inside the loop body (assistant-content truncation). -/
def buildStep (acc : BuildAcc) (t : TaggedEvent) : Option BuildAcc :=
  match t.event.message with
  | none => some acc
  | some msg =>
    match t.kind with
    | .user => some (claudeUserStep acc t msg)
    | .assistant => claudeAssistantStep acc t msg

/-- The sort order of the second pass: `a.ts.cmp(&b.ts)`, non-strict. -/
def tagLe (a b : TaggedEvent) : Prop := strLe a.ts b.ts = true

instance : DecidableRel tagLe := fun a b => instDecidableEqBool (strLe a.ts b.ts) true

/-- The merged, tagged event list of `parse_session_file` before sorting, with
the `HashMap::into_values` iteration order explicit as `iter`. -/
def taggedEvents (events : List RawEvent)
    (iter : List (RawEvent × Str) → List (RawEvent × Str)) : List TaggedEvent :=
  let acc := events.foldl scanStep scanInit
  let all_assistant := iter (acc.assistant_by_id.map Prod.snd) ++ acc.assistant_no_id
  acc.user_events.map (fun p => TaggedEvent.mk .user p.1 p.2) ++
    all_assistant.map (fun p => TaggedEvent.mk .assistant p.1 p.2)

/-- `parse_session_file` from parser.rs, over the list of successfully decoded
records.  `iter` makes the unspecified `HashMap::into_values` iteration order
explicit: the source applies it to the deduplicated assistant entries, and any
run of the program corresponds to some `iter` with `iter l` a permutation of
`l`.  `none` models a panic. -/
def parse_session_file (events : List RawEvent)
    (iter : List (RawEvent × Str) → List (RawEvent × Str))
    (session_id project_id : Str) : Option ParsedSession :=
  let acc := events.foldl scanStep scanInit
  let sorted := List.insertionSort tagLe (taggedEvents events iter)
  match List.foldlM buildStep buildInit sorted with
  | none => none
  | some b => some
    { session_id := session_id
      project_id := project_id
      cwd := acc.cwd
      messages := b.messages
      tool_usage := b.tool_usage
      total_tokens := b.tokens
      duration_ms := acc.duration_ms
      lines_added := b.lines_added
      lines_removed := b.lines_removed
      file_contributions := b.file_contributions
      first_prompt := b.first_prompt
      started_at := acc.started_at
      last_active := acc.last_active
      human_lines := b.human_lines
      human_words := b.human_words
      human_chars := b.human_chars
      model := b.model
      source := .Claude }

-- cursor_parser.rs: bubble model and session construction --------------------

/-- `BubbleTokenCount` from cursor_parser.rs. -/
structure BubbleTokenCount where
  input_tokens : Option Nat
  output_tokens : Option Nat
deriving DecidableEq, Repr

/-- `CodeBlockUri` from cursor_parser.rs. -/
structure CodeBlockUri where
  fs_path : Option Str
  path : Option Str
deriving DecidableEq, Repr

/-- `CursorCodeBlock` from cursor_parser.rs. -/
structure CursorCodeBlock where
  content : Option Str
  uri : Option CodeBlockUri
deriving DecidableEq, Repr

/-- `BubbleTiming` from cursor_parser.rs. -/
structure BubbleTiming where
  client_start_time : Option ℚ
  client_end_time : Option ℚ
  client_settle_time : Option ℚ
deriving DecidableEq, Repr

/-- `CursorBubble` from cursor_parser.rs. -/
structure CursorBubble where
  bubble_type : Option Int
  text : Option Str
  token_count : Option BubbleTokenCount
  code_blocks : Option (List CursorCodeBlock)
  timing_info : Option BubbleTiming
  bubble_id : Option Str
deriving DecidableEq, Repr

/-- `BUBBLE_USER`. -/
def BUBBLE_USER : Int := 1

/-- `BUBBLE_ASSISTANT`. -/
def BUBBLE_ASSISTANT : Int := 2

/-- `normalize_tool` from cursor_parser.rs. -/
def normalize_tool (name : Str) : Str :=
  if name = str "edit_file" then str "Edit"
  else if name = str "create_file" then str "Write"
  else if name = str "run_terminal_command" then str "Bash"
  else if name = str "read_file" then str "Read"
  else if name = str "list_directory" then str "Glob"
  else if name = str "file_search" then str "Glob"
  else if name = str "search_files" then str "Grep"
  else if name = str "codebase_search" then str "Grep"
  else if name = str "grep_search" then str "Grep"
  else name

/-- State of the bubble loop of `build_parsed_session`. -/
structure CursorAcc where
  messages : List ConversationMessage
  tool_usage : List (Str × Nat)
  tokens : TokenTotals
  lines_added : Nat
  file_contributions : List (Str × FileContribution)
  first_prompt : Str
  started_at : Str
  last_active : Str
  human_lines : Nat
  human_words : Nat
  human_chars : Nat
  duration_ms : ℚ
deriving Repr

/-- Initial bubble-loop state. -/
def cursorInit : CursorAcc := ⟨[], [], .zero, 0, [], [], [], [], 0, 0, 0, 0⟩

/-- The per-code-block body of the assistant branch of `build_parsed_session`. -/
def codeBlockStep (acc : CursorAcc) (cb : CursorCodeBlock) : CursorAcc :=
  match cb.content with
  | none => acc
  | some content =>
    let lines := rustLineCount content
    let acc := { acc with lines_added := acc.lines_added + lines }
    let fp := (cb.uri >>= fun u => u.fs_path.orElse (fun _ => u.path)).getD []
    if fp ≠ [] then
      { acc with
        file_contributions := bumpContribution acc.file_contributions fp lines 0,
        tool_usage := bumpTool acc.tool_usage (normalize_tool (str "edit_file")) }
    else acc

/-- The `started_at`/`last_active` capture of the bubble loop. -/
def cursorTsUpdate (acc : CursorAcc) (ts : Str) : CursorAcc :=
  if ts ≠ [] then
    { acc with
      started_at := if acc.started_at = [] then ts else acc.started_at,
      last_active := ts }
  else acc

/-- The `tokens.input` running-maximum update of the user-bubble branch. -/
def cursorUserInputUpdate (acc : CursorAcc) (inp : Option Nat) : CursorAcc :=
  match inp with
  | some input => { acc with tokens := { acc.tokens with input := max acc.tokens.input input } }
  | none => acc

/-- The user-bubble (type 1) branch of `build_parsed_session`. -/
def cursorUserStep (session_id : Str) (acc : CursorAcc) (ts text : Str) (b : CursorBubble) :
    CursorAcc :=
  let acc :=
    if acc.first_prompt = [] ∧ rustTrim text ≠ [] then
      { acc with first_prompt := rustTrim text }
    else acc
  let trimmed := rustTrim text
  let acc :=
    if trimmed ≠ [] then
      { acc with
        human_lines := acc.human_lines + rustLineCount trimmed,
        human_words := acc.human_words + wordCount trimmed,
        human_chars := acc.human_chars + utf8Len trimmed }
    else acc
  let acc := cursorUserInputUpdate acc (b.token_count >>= (·.input_tokens))
  { acc with messages := acc.messages ++
    [⟨str "user", ts,
      b.bubble_id.getD (str "cursor-" ++ session_id ++ str "-" ++ natToStr acc.messages.length),
      none, text⟩] }

/-- The token-count update of the assistant-bubble branch: `output` by sum,
`input` by running maximum. -/
def cursorTokensUpdate (acc : CursorAcc) (tCount : Option BubbleTokenCount) : CursorAcc :=
  match tCount with
  | some tc =>
    let acc :=
      match tc.output_tokens with
      | some output => { acc with tokens := { acc.tokens with output := acc.tokens.output + output } }
      | none => acc
    match tc.input_tokens with
    | some input => { acc with tokens := { acc.tokens with input := max acc.tokens.input input } }
    | none => acc
  | none => acc

/-- The duration accumulation of the assistant-bubble branch. -/
def cursorDurationUpdate (acc : CursorAcc) (start_time end_time : Option ℚ) : CursorAcc :=
  match start_time, end_time with
  | some s, some e => { acc with duration_ms := acc.duration_ms + (e - s) }
  | _, _ => acc

/-- The code-block processing of the assistant-bubble branch. -/
def cursorCodeBlocksUpdate (acc : CursorAcc) (cBlocks : Option (List CursorCodeBlock)) :
    CursorAcc :=
  match cBlocks with
  | some cbs => cbs.foldl codeBlockStep acc
  | none => acc

/-- The assistant-bubble (type 2) branch of `build_parsed_session`;
`none` models the truncation panic. -/
def cursorAssistantStep (session_id : Str) (acc : CursorAcc) (ts text : Str) (b : CursorBubble)
    (start_time end_time : Option ℚ) : Option CursorAcc :=
  let acc := cursorTokensUpdate acc b.token_count
  let acc := cursorDurationUpdate acc start_time end_time
  let acc := cursorCodeBlocksUpdate acc b.code_blocks
  match truncateContent text with
  | none => none
  | some content =>
    some { acc with messages := acc.messages ++
      [⟨str "assistant", ts,
        b.bubble_id.getD (str "cursor-" ++ session_id ++ str "-" ++ natToStr acc.messages.length),
        none, content⟩] }

/-- The per-bubble timestamp string: resolved start time rendered to ISO, with
the composer creation time as fallback. -/
def cursorTsOf (composer_created_at : Str) (msToIso : ℚ → Str) (base_epoch_ms : ℚ)
    (b : CursorBubble) : Str :=
  ((resolve_timestamp (b.timing_info >>= (·.client_start_time)) base_epoch_ms).map
    msToIso).getD composer_created_at

/-- One iteration of the bubble loop of `build_parsed_session`.
`msToIso` models `ms_to_iso` (chrono RFC-3339 rendering) and `base_epoch_ms`
the epoch value chrono derives from `composer_created_at`; both are explicit
parameters because the source computes them with the chrono library.
`none` models the assistant-content truncation panic. -/
def cursorStep (composer_created_at : Str) (msToIso : ℚ → Str) (base_epoch_ms : ℚ)
    (session_id : Str) (acc : CursorAcc) (b : CursorBubble) : Option CursorAcc :=
  let raw_end := b.timing_info >>= (fun t => t.client_end_time.orElse (fun _ => t.client_settle_time))
  let start_time := resolve_timestamp (b.timing_info >>= (·.client_start_time)) base_epoch_ms
  let end_time := resolve_timestamp raw_end base_epoch_ms
  let ts := cursorTsOf composer_created_at msToIso base_epoch_ms b
  let acc := cursorTsUpdate acc ts
  let text := b.text.getD []
  let bubble_type := b.bubble_type.getD 0
  if bubble_type = BUBBLE_USER then some (cursorUserStep session_id acc ts text b)
  else if bubble_type = BUBBLE_ASSISTANT then
    cursorAssistantStep session_id acc ts text b start_time end_time
  else some acc

/-- `build_parsed_session` from cursor_parser.rs. -/
def build_parsed_session (bubbles : List CursorBubble)
    (session_id project_id composer_created_at : Str)
    (msToIso : ℚ → Str) (base_epoch_ms : ℚ) : Option ParsedSession :=
  match List.foldlM (cursorStep composer_created_at msToIso base_epoch_ms session_id)
      cursorInit bubbles with
  | none => none
  | some a => some
    { session_id := session_id
      project_id := project_id
      cwd := []
      messages := a.messages
      tool_usage := a.tool_usage
      total_tokens := a.tokens
      duration_ms := a.duration_ms
      lines_added := a.lines_added
      lines_removed := 0
      file_contributions := a.file_contributions
      first_prompt := a.first_prompt
      started_at := if a.started_at = [] then composer_created_at else a.started_at
      last_active := if a.last_active = [] then composer_created_at else a.last_active
      human_lines := a.human_lines
      human_words := a.human_words
      human_chars := a.human_chars
      model := []
      source := .Cursor }

-- scanner.rs: project merging ------------------------------------------------

/-- `SessionFile` (as used by the scanners). -/
structure SessionFile where
  id : Str
  path : Str
  size : Nat
  source : DataSource
deriving DecidableEq, Repr

/-- `ScannedProject` (as used by the scanners and merger). -/
structure ScannedProject where
  id : Str
  dir : Str
  source : DataSource
  sources : List DataSource
  session_files : List SessionFile
deriving DecidableEq, Repr

/-- `normalize_path` from scanner.rs. -/
def normalize_path (p : Str) : Str := trimEndSlashes p

/-- The cursor-project half of the merge loop in `scan_all_projects`:
merge into a same-path entry, else insert. -/
def mergeCursorProject (m : List (Str × ScannedProject)) (cursor_proj : ScannedProject) :
    List (Str × ScannedProject) :=
  let key := normalize_path cursor_proj.dir
  if m.any (fun kv => kv.1 = key) then
    m.map fun kv =>
      if kv.1 = key then
        (kv.1,
          { kv.2 with
            session_files := kv.2.session_files ++ cursor_proj.session_files,
            sources :=
              if kv.2.sources.contains DataSource.Cursor then kv.2.sources
              else kv.2.sources ++ [DataSource.Cursor] })
      else kv
  else m ++ [(key, cursor_proj)]

/-- `scan_all_projects` from scanner.rs.  The `by_path` `HashMap` is modelled
as an association list; the claims below only concern which projects appear
with which contents, not their order. -/
def scan_all_projects (claude_projects cursor_projects : List ScannedProject) :
    List ScannedProject :=
  let by_path := claude_projects.foldl
    (fun m proj => assocInsert m (normalize_path proj.dir) proj) []
  let by_path := cursor_projects.foldl mergeCursorProject by_path
  by_path.map Prod.snd

-- spec-side definitions used to state the claims -----------------------------

/-- The spec's description of `total_tokens.input`: the maximum input-token
value observed across a session's events. -/
def maxInputObserved (events : List RawEvent) : Nat :=
  (events.filterMap fun e => (e.message.bind (·.usage)).bind (·.input_tokens)).foldl max 0

/-- Input-token contribution of one tagged event to the second-pass totals. -/
def tokenInputOf (t : TaggedEvent) : Nat :=
  match t.kind, t.event.message with
  | .assistant, some msg => (msg.usage.bind (·.input_tokens)).getD 0
  | _, _ => 0

/-- Output-token contribution of one tagged event to the second-pass totals. -/
def tokenOutputOf (t : TaggedEvent) : Nat :=
  match t.kind, t.event.message with
  | .assistant, some msg => (msg.usage.bind (·.output_tokens)).getD 0
  | _, _ => 0

/-- Number of messages one tagged event contributes to the message list. -/
def msgCountOf (t : TaggedEvent) : Nat :=
  match t.event.message with
  | some _ => 1
  | none => 0

/-- The deduplicated assistant records of a log: the last record per message
id (in canonical association-list order) followed by the id-less records. -/
def dedupedAssistants (events : List RawEvent) : List (RawEvent × Str) :=
  let acc := events.foldl scanStep scanInit
  acc.assistant_by_id.map Prod.snd ++ acc.assistant_no_id

/-- The non-empty timestamps of the records the first pass keeps, in file
order. -/
def keptTimestamps (events : List RawEvent) : List Str :=
  (events.filter fun e => !(SKIP_TYPES.contains e.event_type)).filterMap
    fun e => if e.timestamp.getD [] = [] then none else some (e.timestamp.getD [])

/-- The non-empty per-bubble timestamp strings of the cursor loop, in bubble
order. -/
def cursorKeptTimestamps (bubbles : List CursorBubble) (created : Str)
    (msToIso : ℚ → Str) (base : ℚ) : List Str :=
  bubbles.filterMap fun b =>
    if cursorTsOf created msToIso base b = [] then none
    else some (cursorTsOf created msToIso base b)

/-- The input-token values the cursor loop observes (user and assistant
bubbles), in bubble order. -/
def cursorInputObserved (bubbles : List CursorBubble) : List Nat :=
  bubbles.filterMap fun b =>
    if b.bubble_type.getD 0 = BUBBLE_USER ∨ b.bubble_type.getD 0 = BUBBLE_ASSISTANT then
      b.token_count.bind (·.input_tokens)
    else none

/-- The output-token values of the assistant bubbles, in bubble order. -/
def cursorOutputObserved (bubbles : List CursorBubble) : List Nat :=
  bubbles.filterMap fun b =>
    if b.bubble_type.getD 0 = BUBBLE_ASSISTANT then b.token_count.bind (·.output_tokens)
    else none

/-- The input-token value one bubble contributes to the running maximum
(0 when absent or when the bubble is neither user- nor assistant-typed). -/
def bubbleInputOf (b : CursorBubble) : Nat :=
  if b.bubble_type.getD 0 = BUBBLE_USER ∨ b.bubble_type.getD 0 = BUBBLE_ASSISTANT then
    (b.token_count.bind (·.input_tokens)).getD 0
  else 0

/-- The output-token value one bubble contributes to the sum. -/
def bubbleOutputOf (b : CursorBubble) : Nat :=
  if b.bubble_type.getD 0 = BUBBLE_ASSISTANT then (b.token_count.bind (·.output_tokens)).getD 0
  else 0

-- concrete inputs used by individual claims ----------------------------------

/-- An assistant record with message id `i`, timestamp `ts` and per-event
input-token count `inp`. -/
def c1event (i ts : String) (inp : Nat) : RawEvent :=
  ⟨str "assistant", none, none, none, some (str "u"), some (str ts),
   some ⟨str "assistant", .strVal (str "hello"), none, some (str i), some ⟨some inp, some 1, none, none⟩⟩, none⟩

/-- Two assistant records with distinct ids and input-token counts 100, 200. -/
def c1events : List RawEvent :=
  [c1event "a" "2024-01-01T00:00:00Z" 100, c1event "b" "2024-01-02T00:00:00Z" 200]

/-- A user record carrying timestamp `ts`. -/
def c5event (ts : String) : RawEvent :=
  ⟨str "user", none, none, none, some (str "u"), some (str ts),
   some ⟨str "user", .strVal (str "hi"), none, none, none⟩, none⟩

/-- Two user records whose timestamps are out of order. -/
def c5events : List RawEvent :=
  [c5event "2024-01-02T00:00:00Z", c5event "2024-01-01T00:00:00Z"]

/-- A session handle named `n` (contents irrelevant to the merge). -/
def c6file (n : String) : SessionFile := ⟨str n, str "/db", 0, .Claude⟩

/-- First Claude container at `/Users/a/proj`. -/
def c6p1 : ScannedProject := ⟨str "p1", str "/Users/a/proj", .Claude, [.Claude], [c6file "one"]⟩

/-- Second Claude container at the same path. -/
def c6p2 : ScannedProject := ⟨str "p2", str "/Users/a/proj", .Claude, [.Claude], [c6file "two"]⟩

/-- A Cursor container at `/Users/a/proj/` (trailing separator). -/
def c6cursor : ScannedProject :=
  ⟨str "cursor-proj", str "/Users/a/proj/", .Cursor, [.Cursor],
   [⟨str "cid", str "/db", 0, .Cursor⟩]⟩

/-- An assistant record with message id `i` and content `c`, at a fixed
timestamp shared by both records. -/
def c8event (i c : String) : RawEvent :=
  ⟨str "assistant", none, none, none, some (str "u"), some (str "2024-01-01T00:00:00Z"),
   some ⟨str "assistant", .strVal (str c), none, some (str i), none⟩, none⟩

/-- Two id-bearing assistant records with equal timestamps and different
contents. -/
def c8events : List RawEvent := [c8event "a" "one", c8event "b" "two"]

/-- The reversing iteration order (a permutation, hence a possible
`HashMap::into_values` order). -/
def c8iterRev : List (RawEvent × Str) → List (RawEvent × Str) := fun l => l.reverse

/-- The deduplicated assistant entries of `c8events` in canonical order. -/
def c8dedup : List (RawEvent × Str) :=
  (c8events.foldl scanStep scanInit).assistant_by_id.map Prod.snd

/-- An assistant message with id `m1` and the given text content. -/
def c4msg (c : String) : RawMessage :=
  ⟨str "assistant", .strVal (str c), none, some (str "m1"), none⟩

/-- An assistant record carrying `c4msg c`. -/
def c4event (c : String) : RawEvent :=
  ⟨str "assistant", none, none, none, some (str "u"), some (str "2024-01-01T00:00:00Z"),
   some (c4msg c), none⟩

/-- The session parsed from the two same-id records `c4event "first"`,
`c4event "second"`. -/
def c4result : ParsedSession :=
  { session_id := str "s", project_id := str "p", cwd := [],
    messages :=
      [⟨str "assistant", str "2024-01-01T00:00:00Z", str "u", none, str "second"⟩],
    tool_usage := [], total_tokens := ⟨0, 0, 0, 0⟩, duration_ms := 0,
    lines_added := 0, lines_removed := 0, file_contributions := [],
    first_prompt := [], started_at := str "2024-01-01T00:00:00Z",
    last_active := str "2024-01-01T00:00:00Z",
    human_lines := 0, human_words := 0, human_chars := 0, model := [], source := .Claude }

/-- 4999 ASCII bytes followed by a three-byte character: byte index 5000 falls
inside the final character. -/
def c9text : Str := List.replicate 4999 'a' ++ ['€']

/-- An assistant record whose display text is `c9text`. -/
def c9event : RawEvent :=
  ⟨str "assistant", none, none, none, some (str "u"), some (str "2024-01-01T00:00:00Z"),
   some ⟨str "assistant", .strVal c9text, none, none, none⟩, none⟩

/-- An assistant bubble reporting the given cumulative input and per-turn
output token counts. -/
def c2bubble (i o : Nat) : CursorBubble :=
  ⟨some 2, some (str "hi"), some ⟨some i, some o⟩, none, none, some (str "b")⟩

/-- The spec's three-bubble token example. -/
def c2bubbles : List CursorBubble := [c2bubble 100 10, c2bubble 250 20, c2bubble 180 30]

/-- The session the cursor normalizer produces from `c2bubbles`. -/
def c2result : ParsedSession :=
  { session_id := str "s", project_id := str "p", cwd := [],
    messages :=
      [⟨str "assistant", [], str "b", none, str "hi"⟩,
       ⟨str "assistant", [], str "b", none, str "hi"⟩,
       ⟨str "assistant", [], str "b", none, str "hi"⟩],
    tool_usage := [], total_tokens := ⟨250, 60, 0, 0⟩, duration_ms := 0,
    lines_added := 0, lines_removed := 0, file_contributions := [],
    first_prompt := [], started_at := [], last_active := [],
    human_lines := 0, human_words := 0, human_chars := 0, model := [], source := .Cursor }

/-- The session the JSON-lines normalizer produces from `c1events`. -/
def c1result : ParsedSession :=
  { session_id := str "s", project_id := str "p", cwd := [],
    messages :=
      [⟨str "assistant", str "2024-01-01T00:00:00Z", str "u",
        some ⟨some 100, some 1, none, none⟩, str "hello"⟩,
       ⟨str "assistant", str "2024-01-02T00:00:00Z", str "u",
        some ⟨some 200, some 1, none, none⟩, str "hello"⟩],
    tool_usage := [], total_tokens := ⟨300, 2, 0, 0⟩, duration_ms := 0,
    lines_added := 0, lines_removed := 0, file_contributions := [],
    first_prompt := [], started_at := str "2024-01-01T00:00:00Z",
    last_active := str "2024-01-02T00:00:00Z",
    human_lines := 0, human_words := 0, human_chars := 0, model := [], source := .Claude }

/-- An assistant bubble carrying one two-line code block for `/f.rs`. -/
def c10bubble : CursorBubble :=
  ⟨some 2, some (str "code"), none,
   some [⟨some (str "line1\nline2"), some ⟨some (str "/f.rs"), none⟩⟩], none, some (str "b")⟩

/-- The session the cursor normalizer produces from `[c10bubble]`. -/
def c10result : ParsedSession :=
  { session_id := str "s", project_id := str "p", cwd := [],
    messages := [⟨str "assistant", [], str "b", none, str "code"⟩],
    tool_usage := [(str "Edit", 1)],
    total_tokens := ⟨0, 0, 0, 0⟩, duration_ms := 0, lines_added := 2, lines_removed := 0,
    file_contributions := [(str "/f.rs", ⟨2, 0⟩)],
    first_prompt := [], started_at := [], last_active := [],
    human_lines := 0, human_words := 0, human_chars := 0, model := [], source := .Cursor }

-- basic properties of the byte-wise string order -----------------------------

theorem strLe_refl (s : Str) : strLe s s = true := by
  induction s with
  | nil => rfl
  | cons c cs ih => simp [strLe, ih]

theorem strLe_total (a b : Str) : strLe a b = true ∨ strLe b a = true := by
  induction a generalizing b with
  | nil => left; rfl
  | cons c cs ih =>
    cases b with
    | nil => right; rfl
    | cons d ds =>
      rcases lt_trichotomy c d with h | h | h
      · left; simp [strLe, h]
      · subst h
        rcases ih ds with h2 | h2
        · left; simp [strLe, lt_irrefl, h2]
        · right; simp [strLe, lt_irrefl, h2]
      · right; simp [strLe, h]

theorem strLe_trans {a b c : Str} (h1 : strLe a b = true) (h2 : strLe b c = true) :
    strLe a c = true := by
  induction a generalizing b c with
  | nil => rfl
  | cons x xs ih =>
    cases b with
    | nil => simp [strLe] at h1
    | cons y ys =>
      cases c with
      | nil => simp [strLe] at h2
      | cons z zs =>
        simp only [strLe] at h1 h2 ⊢
        rcases lt_trichotomy x y with hxy | hxy | hxy
        · rcases lt_trichotomy y z with hyz | hyz | hyz
          · simp [hxy.trans hyz]
          · subst hyz; simp [hxy]
          · simp [hyz, not_lt.mpr hyz.le] at h2
        · subst hxy
          rcases lt_trichotomy x z with hxz | hxz | hxz
          · simp [hxz]
          · subst hxz
            simp only [lt_irrefl, if_false] at h1 h2 ⊢
            exact ih h1 h2
          · simp [hxz, not_lt.mpr hxz.le] at h2
        · simp [hxy, not_lt.mpr hxy.le] at h1

theorem strLe_antisymm {a b : Str} (h1 : strLe a b = true) (h2 : strLe b a = true) : a = b := by
  induction a generalizing b with
  | nil =>
    cases b with
    | nil => rfl
    | cons d ds => simp [strLe] at h2
  | cons c cs ih =>
    cases b with
    | nil => simp [strLe] at h1
    | cons d ds =>
      rcases lt_trichotomy c d with h | h | h
      · simp [strLe, h, not_lt.mpr h.le] at h2
      · subst h
        simp only [strLe, lt_irrefl, if_false] at h1 h2
        rw [ih h1 h2]
      · simp [strLe, h, not_lt.mpr h.le] at h1

instance : IsTotal TaggedEvent tagLe := ⟨fun a b => strLe_total a.ts b.ts⟩

instance : IsTrans TaggedEvent tagLe := ⟨fun _ _ _ => strLe_trans⟩

-- C3 -------------------------------------------------------------------------

/-- C3: `resolve_timestamp` returns `none` for absent or non-positive
candidates, the candidate itself above 1e12, `base + candidate` for candidates
in (0, 1e12] when a positive base is available, and `none` otherwise; in
particular 1 700 000 000 000 resolves to itself, 5000 with base
1 700 000 000 000 resolves to 1 700 000 005 000, and 0 is unresolvable. -/
theorem claim3_timestamp_resolution :
    (∀ base : ℚ, resolve_timestamp none base = none) ∧
    (∀ (v base : ℚ), v ≤ 0 → resolve_timestamp (some v) base = none) ∧
    (∀ (v base : ℚ), 1000000000000 < v → resolve_timestamp (some v) base = some v) ∧
    (∀ (v base : ℚ), 0 < v → v ≤ 1000000000000 → 0 < base →
      resolve_timestamp (some v) base = some (base + v)) ∧
    (∀ (v base : ℚ), 0 < v → v ≤ 1000000000000 → base ≤ 0 →
      resolve_timestamp (some v) base = none) ∧
    resolve_timestamp (some 1700000000000) 0 = some 1700000000000 ∧
    resolve_timestamp (some 5000) 1700000000000 = some 1700000005000 ∧
    resolve_timestamp (some 0) 1700000000000 = none := by
  refine ⟨fun _ => rfl, ?_, ?_, ?_, ?_, ?_, ?_, ?_⟩
  · intro v base h
    simp [resolve_timestamp, h]
  · intro v base h
    simp [resolve_timestamp, not_le.mpr (by linarith : (0:ℚ) < v), h]
  · intro v base h0 h12 hb
    simp [resolve_timestamp, not_le.mpr h0, not_lt.mpr h12, hb]
  · intro v base h0 h12 hb
    simp [resolve_timestamp, not_le.mpr h0, not_lt.mpr h12, not_lt.mpr hb]
  · norm_num [resolve_timestamp]
  · norm_num [resolve_timestamp]
  · norm_num [resolve_timestamp]

/-- Witness for C3 at the spec's concrete offset example. -/
theorem claim3_witness :
    resolve_timestamp (some 5000) 1700000000000 = some 1700000005000 := by
  have h := claim3_timestamp_resolution.2.2.2.1 5000 1700000000000
    (by norm_num) (by norm_num) (by norm_num)
  rw [h]
  norm_num

-- C7 -------------------------------------------------------------------------

theorem cast_ite_sub (i c : Nat) :
    (((if c < i then i - c else 0 : Nat) : ℚ)) = max ((i : ℚ) - (c : ℚ)) 0 := by
  rcases lt_or_le c i with h | h
  · rw [if_pos h, Nat.cast_sub h.le, max_eq_left]
    have : (c : ℚ) ≤ (i : ℚ) := by exact_mod_cast h.le
    linarith
  · rw [if_neg (not_lt.mpr h), max_eq_right]
    · norm_num
    · have : (i : ℚ) ≤ (c : ℚ) := by exact_mod_cast h
      linarith

/-- C7: the estimated cost is
`(max(input − cache_read, 0)·input_rate + output·output_rate + cache_read·cache_rate) / 1e6`
with the opus rates when the lowercased model contains "opus", the haiku rates
when it contains "haiku", and the sonnet default otherwise; in particular
`claude-opus-4` with input 2 000 000, output 100 000, cache_read 500 000 costs
exactly 30.75. -/
theorem claim7_cost_formula :
    (∀ (model : Str) (input output cache_read : Nat),
      estimate_cost model input output cache_read =
        (max ((input : ℚ) - (cache_read : ℚ)) 0 *
            (if containsSub (toLowerStr model) (str "opus") then (15 : ℚ)
             else if containsSub (toLowerStr model) (str "haiku") then 0.8 else 3) +
          (output : ℚ) *
            (if containsSub (toLowerStr model) (str "opus") then (75 : ℚ)
             else if containsSub (toLowerStr model) (str "haiku") then 4 else 15) +
          (cache_read : ℚ) *
            (if containsSub (toLowerStr model) (str "opus") then (1.5 : ℚ)
             else if containsSub (toLowerStr model) (str "haiku") then 0.08 else 0.3)) /
          1000000) ∧
    estimate_cost (str "claude-opus-4") 2000000 100000 500000 = 30.75 := by
  constructor
  · intro model input output cache_read
    have hmax := cast_ite_sub input cache_read
    rw [← hmax]
    unfold estimate_cost model_pricing
    rcases hop : containsSub (toLowerStr model) (str "opus") with _ | _ <;>
      rcases hha : containsSub (toLowerStr model) (str "haiku") with _ | _ <;>
        simp [hop, hha]
  · have hop : containsSub (toLowerStr (str "claude-opus-4")) (str "opus") = true := by decide
    norm_num [estimate_cost, model_pricing, hop]

-- C2 -------------------------------------------------------------------------

/-- C2: assistant bubbles with `inputTokens = [100, 250, 180]` and
`outputTokens = [10, 20, 30]` resolve to `input = 250` (running maximum) and
`output = 60` (sum). -/
theorem claim2_token_max_vs_sum :
    (build_parsed_session [c2bubble 100 10, c2bubble 250 20, c2bubble 180 30]
        (str "s") (str "p") [] (fun _ => []) 0).map
      (fun s => (s.total_tokens.input, s.total_tokens.output)) = some (250, 60) := by
  decide

-- counterexamples ------------------------------------------------------------

/-- C1 fails on the JSON-lines normalizer: with per-event input-token values
100 and 200 the resolved input total is their sum 300, not the maximum 200. -/
theorem claim1_counterexample :
    (parse_session_file c1events (fun l => l) (str "s") (str "p")).map
        (fun s => s.total_tokens.input) = some 300 ∧
    maxInputObserved c1events = 200 ∧ (300 : Nat) ≠ 200 := by
  decide

/-- C5 fails when timestamps are out of order: with record timestamps
2024-01-02 then 2024-01-01, the produced session has
`started_at > last_active`. -/
theorem claim5_counterexample :
    (parse_session_file c5events (fun l => l) (str "s") (str "p")).map
      (fun s => strLe s.started_at s.last_active) = some false := by
  decide

/-- C6 fails for same-source containers: two Claude containers with the same
normalized path are not merged — the later one replaces the earlier, whose
session handles are dropped. -/
theorem claim6_counterexample :
    normalize_path c6p1.dir = normalize_path c6p2.dir ∧
    (scan_all_projects [c6p1, c6p2] []).map (fun p => p.session_files) = [[c6file "two"]] ∧
    ([[c6file "two"]] : List (List SessionFile)) ≠ [[c6file "one", c6file "two"]] := by
  decide

/-- C8 fails as a two-run statement: with two id-bearing assistant records
sharing a timestamp, the reversed (equally possible) map iteration order
yields a different `ParsedSession`. -/
theorem claim8_counterexample :
    parse_session_file c8events (fun l => l) (str "s") (str "p") ≠
      parse_session_file c8events c8iterRev (str "s") (str "p") ∧
    (c8iterRev c8dedup).Perm c8dedup := by
  decide

-- C9: the truncation step can panic ------------------------------------------

theorem utf8Len_aux (s : Str) (n : Nat) :
    s.foldl (fun n c => n + c.utf8Size) n = n + utf8Len s := by
  induction s generalizing n with
  | nil => simp [utf8Len]
  | cons c cs ih =>
    show cs.foldl _ (n + c.utf8Size) = n + utf8Len (c :: cs)
    rw [ih]
    have h2 : utf8Len (c :: cs) = 0 + c.utf8Size + utf8Len cs := by
      show cs.foldl _ (0 + c.utf8Size) = _
      rw [ih]
    rw [h2]
    omega

theorem utf8Len_cons (c : Char) (s : Str) : utf8Len (c :: s) = c.utf8Size + utf8Len s := by
  show List.foldl _ (0 + c.utf8Size) s = _
  rw [utf8Len_aux]
  omega

theorem utf8Len_append (a b : Str) : utf8Len (a ++ b) = utf8Len a + utf8Len b := by
  induction a with
  | nil => simp [utf8Len]
  | cons c cs ih => simp [utf8Len_cons, ih]; omega

theorem utf8Len_replicate (n : Nat) (c : Char) :
    utf8Len (List.replicate n c) = n * c.utf8Size := by
  induction n with
  | zero => simp [utf8Len]
  | succ k ih =>
    rw [List.replicate_succ, utf8Len_cons, ih]
    ring

theorem takeBytes_rep_panic : ∀ n, takeBytes (List.replicate n 'a' ++ ['€']) (n + 1) = none := by
  intro n
  induction n with
  | zero => decide
  | succ k ih =>
    rw [List.replicate_succ, List.cons_append]
    show (if ('a').utf8Size ≤ k + 1 + 1 then
        (takeBytes (List.replicate k 'a' ++ ['€']) (k + 1 + 1 - ('a').utf8Size)).map _
      else none) = none
    have h1 : ('a').utf8Size = 1 := by decide
    rw [h1, if_pos (by omega)]
    have h2 : k + 1 + 1 - 1 = k + 1 := by omega
    rw [h2, ih]
    rfl

theorem c9text_len : utf8Len c9text = 5002 := by
  show utf8Len (List.replicate 4999 'a' ++ ['€']) = 5002
  rw [utf8Len_append, utf8Len_replicate]
  decide

theorem stripHtml_id (s : Str) (h : ∀ c ∈ s, c ≠ '<' ∧ c ≠ '>') :
    stripHtmlAux false s = s := by
  induction s with
  | nil => rfl
  | cons c cs ih =>
    have hc := h c (List.mem_cons_self c cs)
    show (if c = '<' then _ else if c = '>' then _ else if false = true then _
      else c :: stripHtmlAux false cs) = c :: cs
    rw [if_neg hc.1, if_neg hc.2, if_neg (by simp)]
    rw [ih fun d hd => h d (List.mem_cons_of_mem c hd)]

theorem c9_truncation_is_none :
    truncateContent (strip_html (extract_raw_text (MessageContent.strVal c9text))) = none := by
  have hid : strip_html c9text = c9text := by
    apply stripHtml_id
    intro c hc
    rcases List.mem_append.mp hc with h | h
    · rw [List.eq_of_mem_replicate h]
      decide
    · rw [List.mem_singleton.mp h]
      decide
  show truncateContent (strip_html c9text) = none
  rw [hid]
  unfold truncateContent
  rw [if_pos (by rw [c9text_len]; omega)]
  show (takeBytes (List.replicate 4999 'a' ++ ['€']) 5000).map _ = none
  rw [show (5000 : Nat) = 4999 + 1 from rfl, takeBytes_rep_panic]
  rfl

/-- C9: the claimed totality fails — on an assistant record whose text is 4999
ASCII characters followed by one three-byte character (5002 bytes), the
byte-indexed `content.truncate(5000)` hits the middle of a character and
panics, so the whole parse aborts instead of storing a truncated message. -/
theorem claim9_truncation_panics :
    parse_session_file [c9event] (fun l => l) (str "s") (str "p") = none := by
  have htagged : taggedEvents [c9event] (fun l => l) =
      [⟨.assistant, c9event, str "2024-01-01T00:00:00Z"⟩] := rfl
  have hstep : buildStep buildInit ⟨.assistant, c9event, str "2024-01-01T00:00:00Z"⟩ = none := by
    show claudeAssistantStep buildInit ⟨.assistant, c9event, str "2024-01-01T00:00:00Z"⟩
        ⟨str "assistant", .strVal c9text, none, none, none⟩ = none
    simp only [claudeAssistantStep, c9_truncation_is_none]
  have hts : c9event.timestamp.getD [] = str "2024-01-01T00:00:00Z" := rfl
  simp [parse_session_file, htagged, List.insertionSort, List.orderedInsert,
    List.foldlM, hts, hstep]

-- C6 amended ------------------------------------------------------------------

/-- C6, amended: the merge is cross-source only.  A Cursor container whose
normalized path equals a Claude container's is merged into it — session
handles are concatenated (Claude's first) and `Cursor` is added to the source
set (the union, since Cursor-side containers carry exactly `[Cursor]`).  Two
Claude containers with the same normalized path are NOT merged: the later one
replaces the earlier (see the counterexample). -/
theorem claim6_amended (p q : ScannedProject)
    (h : normalize_path p.dir = normalize_path q.dir) :
    scan_all_projects [p] [q] =
      [{ p with
          session_files := p.session_files ++ q.session_files,
          sources := if p.sources.contains DataSource.Cursor then p.sources
            else p.sources ++ [DataSource.Cursor] }] := by
  have h1 : assocInsert [] (normalize_path p.dir) p = [(normalize_path p.dir, p)] := by
    simp [assocInsert]
  have h2 : mergeCursorProject [(normalize_path p.dir, p)] q =
      [(normalize_path p.dir,
        { p with
          session_files := p.session_files ++ q.session_files,
          sources := if p.sources.contains DataSource.Cursor then p.sources
            else p.sources ++ [DataSource.Cursor] })] := by
    simp only [mergeCursorProject]
    rw [← h]
    simp
  simp only [scan_all_projects, List.foldl_cons, List.foldl_nil, h1, h2, List.map_cons,
    List.map_nil]

/-- Witness for C6 at the spec's example: `/Users/a/proj` (Claude) and
`/Users/a/proj/` (Cursor) merge into one project with the union of sources. -/
theorem claim6_witness :
    scan_all_projects [c6p1] [c6cursor] =
      [{ c6p1 with
          session_files := c6p1.session_files ++ c6cursor.session_files,
          sources := if c6p1.sources.contains DataSource.Cursor then c6p1.sources
            else c6p1.sources ++ [DataSource.Cursor] }] :=
  claim6_amended c6p1 c6cursor (by decide)

-- C10: the cursor normalizer never removes lines -------------------------------

theorem bumpContribution_removed_zero (m : List (Str × FileContribution)) (fp : Str) (da : Nat)
    (h : ∀ kv ∈ m, kv.2.removed = 0) :
    ∀ kv ∈ bumpContribution m fp da 0, kv.2.removed = 0 := by
  intro kv hkv
  unfold bumpContribution at hkv
  split at hkv
  · rcases List.mem_map.mp hkv with ⟨kv0, h0, heq⟩
    by_cases hk : kv0.1 = fp
    · rw [if_pos hk] at heq
      have hr := h kv0 h0
      rw [← heq]
      simpa using hr
    · rw [if_neg hk] at heq
      rw [← heq]
      exact h kv0 h0
  · rcases List.mem_append.mp hkv with h0 | h0
    · exact h kv h0
    · rw [List.mem_singleton.mp h0]

theorem codeBlockStep_fc (acc : CursorAcc) (cb : CursorCodeBlock)
    (h : ∀ kv ∈ acc.file_contributions, kv.2.removed = 0) :
    ∀ kv ∈ (codeBlockStep acc cb).file_contributions, kv.2.removed = 0 := by
  simp only [codeBlockStep]
  split
  · exact h
  · split
    · exact bumpContribution_removed_zero _ _ _ h
    · exact h

theorem foldl_codeBlockStep_fc (cbs : List CursorCodeBlock) (acc : CursorAcc)
    (h : ∀ kv ∈ acc.file_contributions, kv.2.removed = 0) :
    ∀ kv ∈ (cbs.foldl codeBlockStep acc).file_contributions, kv.2.removed = 0 := by
  induction cbs generalizing acc with
  | nil => exact h
  | cons cb cbs ih => exact ih _ (codeBlockStep_fc _ _ h)

theorem CursorAcc_set_messages_fc (x : CursorAcc) (m : List ConversationMessage) :
    ({ x with messages := m } : CursorAcc).file_contributions = x.file_contributions := rfl

theorem cursorTsUpdate_fc (acc : CursorAcc) (ts : Str) :
    (cursorTsUpdate acc ts).file_contributions = acc.file_contributions := by
  simp only [cursorTsUpdate]
  split <;> rfl

theorem cursorUserInputUpdate_fc (acc : CursorAcc) (inp : Option Nat) :
    (cursorUserInputUpdate acc inp).file_contributions = acc.file_contributions := by
  cases inp <;> rfl

theorem cursorTokensUpdate_fc (acc : CursorAcc) (tCount : Option BubbleTokenCount) :
    (cursorTokensUpdate acc tCount).file_contributions = acc.file_contributions := by
  rcases tCount with _ | ⟨tin, tout⟩
  · rfl
  · cases tout <;> cases tin <;> rfl

theorem cursorDurationUpdate_fc (acc : CursorAcc) (st et : Option ℚ) :
    (cursorDurationUpdate acc st et).file_contributions = acc.file_contributions := by
  cases st <;> cases et <;> rfl

theorem cursorCodeBlocksUpdate_fc (acc : CursorAcc) (cBlocks : Option (List CursorCodeBlock))
    (h : ∀ kv ∈ acc.file_contributions, kv.2.removed = 0) :
    ∀ kv ∈ (cursorCodeBlocksUpdate acc cBlocks).file_contributions, kv.2.removed = 0 := by
  cases cBlocks with
  | none => exact h
  | some cbs => exact foldl_codeBlockStep_fc cbs acc h

theorem cursorUserStep_fc (sid : Str) (acc : CursorAcc) (ts text : Str) (b : CursorBubble) :
    (cursorUserStep sid acc ts text b).file_contributions = acc.file_contributions := by
  simp only [cursorUserStep]
  rw [CursorAcc_set_messages_fc, cursorUserInputUpdate_fc]
  repeat' split
  all_goals rfl

theorem cursorAssistantStep_fc (sid : Str) (acc : CursorAcc) (ts text : Str) (b : CursorBubble)
    (st et : Option ℚ) (acc' : CursorAcc)
    (hstep : cursorAssistantStep sid acc ts text b st et = some acc')
    (h : ∀ kv ∈ acc.file_contributions, kv.2.removed = 0) :
    ∀ kv ∈ acc'.file_contributions, kv.2.removed = 0 := by
  simp only [cursorAssistantStep] at hstep
  split at hstep
  · exact absurd hstep (by simp)
  · injection hstep with heq
    rw [← heq, CursorAcc_set_messages_fc]
    apply cursorCodeBlocksUpdate_fc
    rw [cursorDurationUpdate_fc, cursorTokensUpdate_fc]
    exact h

theorem cursorStep_fc (created : Str) (msToIso : ℚ → Str) (base : ℚ) (sid : Str)
    (acc : CursorAcc) (b : CursorBubble) (acc' : CursorAcc)
    (hstep : cursorStep created msToIso base sid acc b = some acc')
    (h : ∀ kv ∈ acc.file_contributions, kv.2.removed = 0) :
    ∀ kv ∈ acc'.file_contributions, kv.2.removed = 0 := by
  have hts : ∀ kv ∈ (cursorTsUpdate acc (cursorTsOf created msToIso base b)).file_contributions,
      kv.2.removed = 0 := by
    rw [cursorTsUpdate_fc]
    exact h
  simp only [cursorStep] at hstep
  split at hstep
  · injection hstep with heq
    rw [← heq]
    rw [cursorUserStep_fc]
    exact hts
  · split at hstep
    · exact cursorAssistantStep_fc _ _ _ _ _ _ _ _ hstep hts
    · injection hstep with heq
      rw [← heq]
      exact hts

theorem cursorFold_fc (created : Str) (msToIso : ℚ → Str) (base : ℚ) (sid : Str) :
    ∀ (bubbles : List CursorBubble) (acc res : CursorAcc),
      List.foldlM (cursorStep created msToIso base sid) acc bubbles = some res →
      (∀ kv ∈ acc.file_contributions, kv.2.removed = 0) →
      ∀ kv ∈ res.file_contributions, kv.2.removed = 0 := by
  intro bubbles
  induction bubbles with
  | nil =>
    intro acc res hfold h
    simp only [List.foldlM] at hfold
    injection hfold with heq
    rw [← heq]
    exact h
  | cons b bs ih =>
    intro acc res hfold h
    simp only [List.foldlM] at hfold
    cases hstep : cursorStep created msToIso base sid acc b with
    | none => rw [hstep] at hfold; exact absurd hfold (by simp)
    | some a' =>
      rw [hstep] at hfold
      exact ih a' res hfold (cursorStep_fc _ _ _ _ _ _ _ hstep h)

/-- C10: every session the SQLite (Cursor) normalizer produces has
`lines_removed = 0`, and every `FileContribution` it contains has
`removed = 0`: this source only ever adds lines. -/
theorem claim10_cursor_never_removes (bubbles : List CursorBubble)
    (session_id project_id composer_created_at : Str) (msToIso : ℚ → Str) (base : ℚ)
    (s : ParsedSession)
    (h : build_parsed_session bubbles session_id project_id composer_created_at msToIso base
      = some s) :
    s.lines_removed = 0 ∧
      s.file_contributions.all (fun kv => kv.2.removed == 0) = true := by
  unfold build_parsed_session at h
  cases hfold : List.foldlM (cursorStep composer_created_at msToIso base session_id)
      cursorInit bubbles with
  | none => rw [hfold] at h; exact absurd h (by simp)
  | some a =>
    rw [hfold] at h
    injection h with heq
    rw [← heq]
    refine ⟨rfl, ?_⟩
    rw [List.all_eq_true]
    intro kv hkv
    have hinv := cursorFold_fc composer_created_at msToIso base session_id bubbles
      cursorInit a hfold (by intro kv hkv; simp [cursorInit] at hkv)
    simpa using hinv kv hkv

/-- Witness for C10 on a session with one code-block-bearing bubble. -/
theorem claim10_witness :
    c10result.lines_removed = 0 ∧
      c10result.file_contributions.all (fun kv => kv.2.removed == 0) = true :=
  claim10_cursor_never_removes [c10bubble] (str "s") (str "p") [] (fun _ => []) 0 c10result
    (by decide)

-- C1: token totals of both normalizers -----------------------------------

-- generic fold facts
theorem foldl_max_shift (l : List Nat) : ∀ a : Nat, l.foldl max a = max a (l.foldl max 0) := by
  induction l with
  | nil => intro a; simp
  | cons x xs ih =>
    intro a
    show xs.foldl max (max a x) = max a (xs.foldl max (max 0 x))
    rw [ih (max a x), ih (max 0 x)]
    simp [Nat.max_assoc, Nat.zero_max]

theorem foldl_max_filterMap {α : Type} (f : α → Option Nat) (l : List α) :
    (l.filterMap f).foldl max 0 = (l.map (fun x => (f x).getD 0)).foldl max 0 := by
  induction l with
  | nil => rfl
  | cons x xs ih =>
    cases hf : f x with
    | none => simp [List.filterMap_cons, hf, ih]
    | some i =>
      simp only [List.filterMap_cons, hf, List.map_cons, List.foldl_cons, Option.getD_some]
      rw [foldl_max_shift (xs.filterMap f), foldl_max_shift (xs.map _), ih]

theorem sum_filterMap {α : Type} (f : α → Option Nat) (l : List α) :
    (l.filterMap f).sum = (l.map (fun x => (f x).getD 0)).sum := by
  induction l with
  | nil => rfl
  | cons x xs ih =>
    cases hf : f x with
    | none => simp [List.filterMap_cons, hf, ih]
    | some i => simp [List.filterMap_cons, hf, ih]

-- cursor side
theorem CursorAcc_set_messages_tokens (x : CursorAcc) (m : List ConversationMessage) :
    ({ x with messages := m } : CursorAcc).tokens = x.tokens := rfl

theorem cursorTsUpdate_tokens (acc : CursorAcc) (ts : Str) :
    (cursorTsUpdate acc ts).tokens = acc.tokens := by
  simp only [cursorTsUpdate]
  split <;> rfl

theorem codeBlockStep_tokens (acc : CursorAcc) (cb : CursorCodeBlock) :
    (codeBlockStep acc cb).tokens = acc.tokens := by
  simp only [codeBlockStep]
  repeat' split
  all_goals rfl

theorem foldl_codeBlockStep_tokens (cbs : List CursorCodeBlock) (acc : CursorAcc) :
    (cbs.foldl codeBlockStep acc).tokens = acc.tokens := by
  induction cbs generalizing acc with
  | nil => rfl
  | cons cb cbs ih => rw [List.foldl_cons, ih, codeBlockStep_tokens]

theorem cursorCodeBlocksUpdate_tokens (acc : CursorAcc) (cBlocks : Option (List CursorCodeBlock)) :
    (cursorCodeBlocksUpdate acc cBlocks).tokens = acc.tokens := by
  cases cBlocks with
  | none => rfl
  | some cbs => exact foldl_codeBlockStep_tokens cbs acc

theorem cursorDurationUpdate_tokens (acc : CursorAcc) (st et : Option ℚ) :
    (cursorDurationUpdate acc st et).tokens = acc.tokens := by
  cases st <;> cases et <;> rfl

theorem cursorUserInputUpdate_tokens (acc : CursorAcc) (inp : Option Nat) :
    (cursorUserInputUpdate acc inp).tokens.input = max acc.tokens.input (inp.getD 0) ∧
    (cursorUserInputUpdate acc inp).tokens.output = acc.tokens.output := by
  cases inp <;> simp [cursorUserInputUpdate]

theorem cursorTokensUpdate_tokens (acc : CursorAcc) (tCount : Option BubbleTokenCount) :
    (cursorTokensUpdate acc tCount).tokens.input =
      max acc.tokens.input ((tCount.bind (·.input_tokens)).getD 0) ∧
    (cursorTokensUpdate acc tCount).tokens.output =
      acc.tokens.output + (tCount.bind (·.output_tokens)).getD 0 := by
  rcases tCount with _ | ⟨tin, tout⟩
  · simp [cursorTokensUpdate]
  · cases tout <;> cases tin <;> simp [cursorTokensUpdate]

theorem cursorUserStep_tokens (sid : Str) (acc : CursorAcc) (ts text : Str) (b : CursorBubble) :
    (cursorUserStep sid acc ts text b).tokens.input =
      max acc.tokens.input ((b.token_count.bind (·.input_tokens)).getD 0) ∧
    (cursorUserStep sid acc ts text b).tokens.output = acc.tokens.output := by
  simp only [cursorUserStep, CursorAcc_set_messages_tokens]
  constructor
  · rw [(cursorUserInputUpdate_tokens _ _).1]
    congr 1
    repeat' split
    all_goals rfl
  · rw [(cursorUserInputUpdate_tokens _ _).2]
    repeat' split
    all_goals rfl

theorem cursorAssistantStep_tokens (sid : Str) (acc : CursorAcc) (ts text : Str)
    (b : CursorBubble) (st et : Option ℚ) (acc' : CursorAcc)
    (hstep : cursorAssistantStep sid acc ts text b st et = some acc') :
    acc'.tokens.input = max acc.tokens.input ((b.token_count.bind (·.input_tokens)).getD 0) ∧
    acc'.tokens.output = acc.tokens.output + (b.token_count.bind (·.output_tokens)).getD 0 := by
  simp only [cursorAssistantStep] at hstep
  split at hstep
  · exact absurd hstep (by simp)
  · injection hstep with heq
    rw [← heq, CursorAcc_set_messages_tokens, cursorCodeBlocksUpdate_tokens,
      cursorDurationUpdate_tokens]
    exact cursorTokensUpdate_tokens acc b.token_count

theorem cursorStep_tokens (created : Str) (msToIso : ℚ → Str) (base : ℚ) (sid : Str)
    (acc : CursorAcc) (b : CursorBubble) (acc' : CursorAcc)
    (hstep : cursorStep created msToIso base sid acc b = some acc') :
    acc'.tokens.input = max acc.tokens.input (bubbleInputOf b) ∧
    acc'.tokens.output = acc.tokens.output + bubbleOutputOf b := by
  simp only [cursorStep] at hstep
  have hts := cursorTsUpdate_tokens acc (cursorTsOf created msToIso base b)
  split at hstep
  · next hbt =>
    injection hstep with heq
    rw [← heq]
    have h1 := cursorUserStep_tokens sid (cursorTsUpdate acc (cursorTsOf created msToIso base b))
      (cursorTsOf created msToIso base b) (b.text.getD []) b
    rw [h1.1, h1.2, hts]
    constructor
    · simp [bubbleInputOf, hbt, BUBBLE_USER]
    · simp [bubbleOutputOf, hbt, BUBBLE_USER, BUBBLE_ASSISTANT]
  · split at hstep
    · next hbt1 hbt2 =>
      have h1 := cursorAssistantStep_tokens sid
        (cursorTsUpdate acc (cursorTsOf created msToIso base b))
        (cursorTsOf created msToIso base b) (b.text.getD []) b _ _ acc' hstep
      rw [h1.1, h1.2, hts]
      constructor
      · simp [bubbleInputOf, hbt2, BUBBLE_ASSISTANT]
      · simp [bubbleOutputOf, hbt2, BUBBLE_ASSISTANT]
    · next hbt1 hbt2 =>
      injection hstep with heq
      rw [← heq, hts]
      constructor
      · simp [bubbleInputOf, hbt1, hbt2]
      · simp [bubbleOutputOf, hbt2]

theorem cursorFold_tokens (created : Str) (msToIso : ℚ → Str) (base : ℚ) (sid : Str) :
    ∀ (bubbles : List CursorBubble) (acc res : CursorAcc),
      List.foldlM (cursorStep created msToIso base sid) acc bubbles = some res →
      res.tokens.input = max acc.tokens.input ((bubbles.map bubbleInputOf).foldl max 0) ∧
      res.tokens.output = acc.tokens.output + (bubbles.map bubbleOutputOf).sum := by
  intro bubbles
  induction bubbles with
  | nil =>
    intro acc res hfold
    simp only [List.foldlM] at hfold
    injection hfold with heq
    rw [← heq]
    simp
  | cons b bs ih =>
    intro acc res hfold
    simp only [List.foldlM] at hfold
    cases hstep : cursorStep created msToIso base sid acc b with
    | none => rw [hstep] at hfold; exact absurd hfold (by simp)
    | some a' =>
      rw [hstep] at hfold
      have h1 := cursorStep_tokens created msToIso base sid acc b a' hstep
      have h2 := ih a' res hfold
      constructor
      · rw [h2.1, h1.1, List.map_cons, List.foldl_cons,
          foldl_max_shift (bs.map bubbleInputOf) (max 0 (bubbleInputOf b))]
        simp [Nat.max_assoc, Nat.zero_max]
      · rw [h2.2, h1.2, List.map_cons, List.sum_cons]
        omega

theorem cursor_totals (bubbles : List CursorBubble)
    (sid pid created : Str) (msToIso : ℚ → Str) (base : ℚ) (s : ParsedSession)
    (h : build_parsed_session bubbles sid pid created msToIso base = some s) :
    s.total_tokens.input = (cursorInputObserved bubbles).foldl max 0 ∧
    s.total_tokens.output = (cursorOutputObserved bubbles).sum := by
  unfold build_parsed_session at h
  cases hfold : List.foldlM (cursorStep created msToIso base sid) cursorInit bubbles with
  | none => rw [hfold] at h; exact absurd h (by simp)
  | some a =>
    rw [hfold] at h
    injection h with heq
    rw [← heq]
    have h1 := cursorFold_tokens created msToIso base sid bubbles cursorInit a hfold
    have hin : (cursorInputObserved bubbles).foldl max 0 =
        (bubbles.map bubbleInputOf).foldl max 0 := by
      rw [cursorInputObserved, foldl_max_filterMap]
      congr 1
      apply List.map_congr_left
      intro b _
      simp only [bubbleInputOf]
      split <;> simp
    have hout : (cursorOutputObserved bubbles).sum = (bubbles.map bubbleOutputOf).sum := by
      rw [cursorOutputObserved, sum_filterMap]
      congr 1
      apply List.map_congr_left
      intro b _
      simp only [bubbleOutputOf]
      split <;> simp
    refine ⟨?_, ?_⟩
    · show a.tokens.input = _
      rw [h1.1, hin]
      simp [cursorInit, TokenTotals.zero]
    · show a.tokens.output = _
      rw [h1.2, hout]
      simp [cursorInit, TokenTotals.zero]

-- claude side ----------------------------------------------------------------

theorem BuildAcc_set_messages_tokens (x : BuildAcc) (m : List ConversationMessage) :
    ({ x with messages := m } : BuildAcc).tokens = x.tokens := rfl

theorem blockStep_tokens (acc : BuildAcc) (block : ContentBlock) :
    (blockStep acc block).tokens = acc.tokens := by
  simp only [blockStep]
  repeat' split
  all_goals rfl

theorem foldl_blockStep_tokens (blocks : List ContentBlock) (acc : BuildAcc) :
    (blocks.foldl blockStep acc).tokens = acc.tokens := by
  induction blocks generalizing acc with
  | nil => rfl
  | cons blk blocks ih => rw [List.foldl_cons, ih, blockStep_tokens]

theorem claudeBlocksUpdate_tokens (acc : BuildAcc) (content : MessageContent) :
    (claudeBlocksUpdate acc content).tokens = acc.tokens := by
  cases content <;> first | rfl | exact foldl_blockStep_tokens _ _

theorem claudeModelUpdate_tokens (acc : BuildAcc) (mdl : Option Str) :
    (claudeModelUpdate acc mdl).tokens = acc.tokens := by
  simp only [claudeModelUpdate]
  split
  · cases mdl <;> rfl
  · rfl

theorem claudeTokensUpdate_tokens (acc : BuildAcc) (usage : Option TokenUsage) :
    (claudeTokensUpdate acc usage).tokens.input =
      acc.tokens.input + (usage.bind (·.input_tokens)).getD 0 ∧
    (claudeTokensUpdate acc usage).tokens.output =
      acc.tokens.output + (usage.bind (·.output_tokens)).getD 0 := by
  cases usage <;> simp [claudeTokensUpdate]

theorem claudeUserStep_tokens (acc : BuildAcc) (t : TaggedEvent) (msg : RawMessage) :
    (claudeUserStep acc t msg).tokens = acc.tokens := by
  simp only [claudeUserStep, BuildAcc_set_messages_tokens]
  repeat' split
  all_goals rfl

theorem claudeAssistantStep_tokens (acc : BuildAcc) (t : TaggedEvent) (msg : RawMessage)
    (acc' : BuildAcc) (hstep : claudeAssistantStep acc t msg = some acc') :
    acc'.tokens.input = acc.tokens.input + (msg.usage.bind (·.input_tokens)).getD 0 ∧
    acc'.tokens.output = acc.tokens.output + (msg.usage.bind (·.output_tokens)).getD 0 := by
  simp only [claudeAssistantStep] at hstep
  split at hstep
  · exact absurd hstep (by simp)
  · injection hstep with heq
    rw [← heq, claudeBlocksUpdate_tokens]
    constructor
    · rw [(claudeTokensUpdate_tokens _ _).1, claudeModelUpdate_tokens,
        BuildAcc_set_messages_tokens]
    · rw [(claudeTokensUpdate_tokens _ _).2, claudeModelUpdate_tokens,
        BuildAcc_set_messages_tokens]

theorem buildStep_tokens (acc : BuildAcc) (t : TaggedEvent) (acc' : BuildAcc)
    (hstep : buildStep acc t = some acc') :
    acc'.tokens.input = acc.tokens.input + tokenInputOf t ∧
    acc'.tokens.output = acc.tokens.output + tokenOutputOf t := by
  simp only [buildStep] at hstep
  split at hstep
  · next hmsg =>
    injection hstep with heq
    rw [← heq]
    simp [tokenInputOf, tokenOutputOf, hmsg]
  · next msg hmsg =>
    split at hstep
    · next hkind =>
      injection hstep with heq
      rw [← heq, claudeUserStep_tokens]
      simp [tokenInputOf, tokenOutputOf, hmsg, hkind]
    · next hkind =>
      have h1 := claudeAssistantStep_tokens acc t msg acc' hstep
      rw [h1.1, h1.2]
      simp [tokenInputOf, tokenOutputOf, hmsg, hkind]

theorem buildFold_tokens :
    ∀ (l : List TaggedEvent) (acc res : BuildAcc),
      List.foldlM buildStep acc l = some res →
      res.tokens.input = acc.tokens.input + (l.map tokenInputOf).sum ∧
      res.tokens.output = acc.tokens.output + (l.map tokenOutputOf).sum := by
  intro l
  induction l with
  | nil =>
    intro acc res hfold
    simp only [List.foldlM] at hfold
    injection hfold with heq
    rw [← heq]
    simp
  | cons t ts ih =>
    intro acc res hfold
    simp only [List.foldlM] at hfold
    cases hstep : buildStep acc t with
    | none => rw [hstep] at hfold; exact absurd hfold (by simp)
    | some a' =>
      rw [hstep] at hfold
      have h1 := buildStep_tokens acc t a' hstep
      have h2 := ih a' res hfold
      constructor
      · rw [h2.1, h1.1, List.map_cons, List.sum_cons]; omega
      · rw [h2.2, h1.2, List.map_cons, List.sum_cons]; omega

theorem claude_totals (events : List RawEvent)
    (iter : List (RawEvent × Str) → List (RawEvent × Str)) (sid pid : Str) (s : ParsedSession)
    (hiter : ∀ l, (iter l).Perm l)
    (h : parse_session_file events iter sid pid = some s) :
    s.total_tokens.input =
      ((dedupedAssistants events).map (fun p => tokenInputOf ⟨.assistant, p.1, p.2⟩)).sum ∧
    s.total_tokens.output =
      ((dedupedAssistants events).map (fun p => tokenOutputOf ⟨.assistant, p.1, p.2⟩)).sum := by
  simp only [parse_session_file] at h
  cases hfold : List.foldlM buildStep buildInit
      (List.insertionSort tagLe (taggedEvents events iter)) with
  | none => rw [hfold] at h; exact absurd h (by simp)
  | some b =>
    rw [hfold] at h
    injection h with heq
    rw [← heq]
    have hsum := buildFold_tokens _ _ _ hfold
    have hperm : (List.insertionSort tagLe (taggedEvents events iter)).Perm
        (taggedEvents events iter) := List.perm_insertionSort _ _
    have hsum_in : ((List.insertionSort tagLe (taggedEvents events iter)).map tokenInputOf).sum
        = ((taggedEvents events iter).map tokenInputOf).sum := (hperm.map _).sum_eq
    have hsum_out : ((List.insertionSort tagLe (taggedEvents events iter)).map tokenOutputOf).sum
        = ((taggedEvents events iter).map tokenOutputOf).sum := (hperm.map _).sum_eq
    have htagged : ∀ f : TaggedEvent → Nat,
        (∀ p : RawEvent × Str, f ⟨.user, p.1, p.2⟩ = 0) →
        ((taggedEvents events iter).map f).sum =
          ((dedupedAssistants events).map (fun p => f ⟨.assistant, p.1, p.2⟩)).sum := by
      intro f hf
      simp only [taggedEvents, dedupedAssistants, List.map_append, List.sum_append]
      have hcomp : ∀ l : List (RawEvent × Str),
          List.map f (List.map (fun p : RawEvent × Str => TaggedEvent.mk .assistant p.1 p.2) l) =
          List.map (fun p : RawEvent × Str => f (TaggedEvent.mk .assistant p.1 p.2)) l := by
        intro l
        rw [List.map_map]
        rfl
      have hu : (List.map f (List.map (fun p : RawEvent × Str => TaggedEvent.mk .user p.1 p.2)
          ((events.foldl scanStep scanInit).user_events))).sum = 0 := by
        rw [List.map_map]
        have hz : List.map (f ∘ fun p : RawEvent × Str => TaggedEvent.mk .user p.1 p.2)
            ((events.foldl scanStep scanInit).user_events) =
            List.map (fun _ => 0) ((events.foldl scanStep scanInit).user_events) :=
          List.map_congr_left (fun p _ => hf p)
        rw [hz]
        simp
      rw [hu, hcomp, hcomp, ((hiter _).map _).sum_eq]
      omega
    constructor
    · show b.tokens.input = _
      rw [hsum.1, hsum_in, htagged tokenInputOf (fun p => rfl)]
      simp [buildInit, TokenTotals.zero]
    · show b.tokens.output = _
      rw [hsum.2, hsum_out, htagged tokenOutputOf (fun p => rfl)]
      simp [buildInit, TokenTotals.zero]

/-- C1, amended: for the SQLite (Cursor) normalizer, `total_tokens.input` is
the maximum input-token value observed across the session's bubbles (user and
assistant) and `total_tokens.output` is the sum across assistant bubbles; for
the JSON-lines normalizer, `total_tokens.output` is likewise the sum across
the deduplicated assistant events, but `total_tokens.input` is a SUM of the
per-event input-token values, not a maximum (this source reports deltas). -/
theorem claim1_amended :
    (∀ (bubbles : List CursorBubble) (sid pid created : Str) (msToIso : ℚ → Str) (base : ℚ)
        (s : ParsedSession),
      build_parsed_session bubbles sid pid created msToIso base = some s →
        s.total_tokens.input = (cursorInputObserved bubbles).foldl max 0 ∧
        s.total_tokens.output = (cursorOutputObserved bubbles).sum) ∧
    (∀ (events : List RawEvent) (iter : List (RawEvent × Str) → List (RawEvent × Str))
        (sid pid : Str) (s : ParsedSession),
      (∀ l, (iter l).Perm l) →
      parse_session_file events iter sid pid = some s →
        s.total_tokens.input =
          ((dedupedAssistants events).map (fun p => tokenInputOf ⟨.assistant, p.1, p.2⟩)).sum ∧
        s.total_tokens.output =
          ((dedupedAssistants events).map (fun p => tokenOutputOf ⟨.assistant, p.1, p.2⟩)).sum) :=
  ⟨cursor_totals, claude_totals⟩

/-- Witness for C1 at the concrete Cursor and JSON-lines sessions. -/
theorem claim1_witness :
    (c2result.total_tokens.input = (cursorInputObserved c2bubbles).foldl max 0 ∧
     c2result.total_tokens.output = (cursorOutputObserved c2bubbles).sum) ∧
    (c1result.total_tokens.input =
        ((dedupedAssistants c1events).map (fun p => tokenInputOf ⟨.assistant, p.1, p.2⟩)).sum ∧
     c1result.total_tokens.output =
        ((dedupedAssistants c1events).map (fun p => tokenOutputOf ⟨.assistant, p.1, p.2⟩)).sum) :=
  ⟨claim1_amended.1 c2bubbles (str "s") (str "p") [] (fun _ => []) 0 c2result (by decide),
   claim1_amended.2 c1events (fun l => l) (str "s") (str "p") c1result
     (fun l => List.Perm.refl l) (by decide)⟩

-- C5: started_at versus last_active ----------------------------------------

theorem scanCwd_started (acc : ScanAcc) (e : RawEvent) :
    (scanCwd acc e).started_at = acc.started_at ∧
    (scanCwd acc e).last_active = acc.last_active := by
  simp only [scanCwd]
  repeat' split
  all_goals exact ⟨rfl, rfl⟩

theorem checkAssistant_started (acc : ScanAcc) (e : RawEvent) (ts : Str) :
    (checkAssistant acc e ts).started_at = acc.started_at ∧
    (checkAssistant acc e ts).last_active = acc.last_active := by
  simp only [checkAssistant]
  repeat' split
  all_goals exact ⟨rfl, rfl⟩

theorem scanTs_started (acc : ScanAcc) (ts : Str) :
    (scanTs acc ts).started_at =
      (if ts = [] then acc.started_at else if acc.started_at = [] then ts else acc.started_at) ∧
    (scanTs acc ts).last_active = (if ts = [] then acc.last_active else ts) := by
  simp only [scanTs]
  by_cases h : ts = [] <;> simp [h]

theorem scanStep_ts_skip (acc : ScanAcc) (e : RawEvent)
    (h : SKIP_TYPES.contains e.event_type = true) :
    (scanStep acc e).started_at = acc.started_at ∧
    (scanStep acc e).last_active = acc.last_active := by
  have h2 : e.event_type ∈ SKIP_TYPES := by simpa using h
  simp [scanStep, h2]

theorem scanStep_ts (acc : ScanAcc) (e : RawEvent)
    (h : SKIP_TYPES.contains e.event_type = false) :
    (scanStep acc e).started_at = (scanTs (scanCwd acc e) (e.timestamp.getD [])).started_at ∧
    (scanStep acc e).last_active = (scanTs (scanCwd acc e) (e.timestamp.getD [])).last_active := by
  simp only [scanStep, h, Bool.false_eq_true, if_false]
  constructor <;>
    · repeat' split
      all_goals first
        | rfl
        | exact (checkAssistant_started _ _ _).1
        | exact (checkAssistant_started _ _ _).2

theorem keptTimestamps_cons (e : RawEvent) (es : List RawEvent) :
    keptTimestamps (e :: es) =
      (if SKIP_TYPES.contains e.event_type = true then keptTimestamps es
       else if e.timestamp.getD [] = [] then keptTimestamps es
       else e.timestamp.getD [] :: keptTimestamps es) := by
  simp only [keptTimestamps, List.filter_cons]
  cases hskip : SKIP_TYPES.contains e.event_type with
  | true => simp [hskip]
  | false =>
    by_cases hts : e.timestamp.getD [] = [] <;>
      simp [hskip, hts, List.filterMap_cons]

theorem scanFold_ts : ∀ (events : List RawEvent) (acc : ScanAcc),
    (events.foldl scanStep acc).started_at =
      (if acc.started_at = [] then (keptTimestamps events).headD [] else acc.started_at) ∧
    (events.foldl scanStep acc).last_active =
      (keptTimestamps events).getLastD acc.last_active := by
  intro events
  induction events with
  | nil =>
    intro acc
    by_cases h : acc.started_at = [] <;> simp [keptTimestamps, h]
  | cons e es ih =>
    intro acc
    rw [List.foldl_cons, keptTimestamps_cons]
    cases hskip : SKIP_TYPES.contains e.event_type with
    | true =>
      have hstep := scanStep_ts_skip acc e hskip
      have h2 := ih (scanStep acc e)
      rw [h2.1, h2.2, hstep.1, hstep.2]
      simp
    | false =>
      have hstep := scanStep_ts acc e hskip
      have hts := scanTs_started (scanCwd acc e) (e.timestamp.getD [])
      have hcwd := scanCwd_started acc e
      have h2 := ih (scanStep acc e)
      rw [h2.1, h2.2, hstep.1, hstep.2, hts.1, hts.2, hcwd.1, hcwd.2]
      by_cases ht : e.timestamp.getD [] = []
      · simp [ht]
      · have hlast : ∀ (x : Str) (xs : List Str) (d1 d2 : Str),
            (x :: xs).getLast?.getD d1 = (x :: xs).getLast?.getD d2 := by
          intro x xs d1 d2
          cases hgl : (x :: xs).getLast? with
          | none => simp [List.getLast?_eq_none_iff] at hgl
          | some v => simp
        by_cases hst : acc.started_at = [] <;>
          · simp [ht, hst]
            cases hkt : keptTimestamps es with
            | nil => simp
            | cons x xs => exact hlast x xs _ _

theorem sorted_headD_le_getLastD :
    ∀ l : List Str, l.Sorted (fun a b => strLe a b = true) →
      strLe (l.headD []) (l.getLastD []) = true := by
  intro l
  induction l with
  | nil => intro _; rfl
  | cons a t ih =>
    intro h
    cases t with
    | nil => exact strLe_refl a
    | cons b t2 =>
      have hab : strLe a b = true := (List.sorted_cons.mp h).1 b (by simp)
      have ht : (b :: t2).Sorted (fun a b => strLe a b = true) := (List.sorted_cons.mp h).2
      have ih2 := ih ht
      simp only [List.headD_cons] at ih2 ⊢
      have : (a :: b :: t2).getLastD [] = (b :: t2).getLastD [] := by
        show (b :: t2).getLastD a = (b :: t2).getLastD []
        cases hgl : (b :: t2).getLast? with
        | none => simp [List.getLast?_eq_none_iff] at hgl
        | some v => simp [List.getLastD, hgl]
      rw [this]
      exact strLe_trans hab ih2

theorem claude_started_le (events : List RawEvent)
    (iter : List (RawEvent × Str) → List (RawEvent × Str)) (sid pid : Str) (s : ParsedSession)
    (h : parse_session_file events iter sid pid = some s)
    (hsorted : (keptTimestamps events).Sorted (fun a b => strLe a b = true)) :
    strLe s.started_at s.last_active = true := by
  simp only [parse_session_file] at h
  cases hfold : List.foldlM buildStep buildInit
      (List.insertionSort tagLe (taggedEvents events iter)) with
  | none => rw [hfold] at h; exact absurd h (by simp)
  | some b =>
    rw [hfold] at h
    injection h with heq
    rw [← heq]
    show strLe (events.foldl scanStep scanInit).started_at
      (events.foldl scanStep scanInit).last_active = true
    have hf := scanFold_ts events scanInit
    rw [hf.1, hf.2]
    have hinit : scanInit.started_at = [] := rfl
    rw [hinit]
    simp only [if_true, ite_true, reduceIte]
    have : (keptTimestamps events).getLastD scanInit.last_active =
        (keptTimestamps events).getLastD [] := rfl
    rw [this]
    exact sorted_headD_le_getLastD _ hsorted

theorem CursorAcc_set_messages_ts (x : CursorAcc) (m : List ConversationMessage) :
    (({ x with messages := m } : CursorAcc).started_at = x.started_at ∧
     ({ x with messages := m } : CursorAcc).last_active = x.last_active) := ⟨rfl, rfl⟩

theorem cursorTsUpdate_started (acc : CursorAcc) (ts : Str) :
    (cursorTsUpdate acc ts).started_at =
      (if ts = [] then acc.started_at else if acc.started_at = [] then ts else acc.started_at) ∧
    (cursorTsUpdate acc ts).last_active = (if ts = [] then acc.last_active else ts) := by
  simp only [cursorTsUpdate]
  by_cases h : ts = [] <;> simp [h]

theorem cursorUserInputUpdate_started (acc : CursorAcc) (inp : Option Nat) :
    (cursorUserInputUpdate acc inp).started_at = acc.started_at ∧
    (cursorUserInputUpdate acc inp).last_active = acc.last_active := by
  cases inp <;> exact ⟨rfl, rfl⟩

theorem cursorUserStep_started (sid : Str) (acc : CursorAcc) (ts text : Str) (b : CursorBubble) :
    (cursorUserStep sid acc ts text b).started_at = acc.started_at ∧
    (cursorUserStep sid acc ts text b).last_active = acc.last_active := by
  simp only [cursorUserStep]
  rw [(CursorAcc_set_messages_ts _ _).1, (CursorAcc_set_messages_ts _ _).2,
    (cursorUserInputUpdate_started _ _).1, (cursorUserInputUpdate_started _ _).2]
  constructor <;>
    · repeat' split
      all_goals rfl

theorem cursorTokensUpdate_started (acc : CursorAcc) (tCount : Option BubbleTokenCount) :
    (cursorTokensUpdate acc tCount).started_at = acc.started_at ∧
    (cursorTokensUpdate acc tCount).last_active = acc.last_active := by
  rcases tCount with _ | ⟨tin, tout⟩
  · exact ⟨rfl, rfl⟩
  · cases tout <;> cases tin <;> exact ⟨rfl, rfl⟩

theorem cursorDurationUpdate_started (acc : CursorAcc) (st et : Option ℚ) :
    (cursorDurationUpdate acc st et).started_at = acc.started_at ∧
    (cursorDurationUpdate acc st et).last_active = acc.last_active := by
  cases st <;> cases et <;> exact ⟨rfl, rfl⟩

theorem codeBlockStep_started (acc : CursorAcc) (cb : CursorCodeBlock) :
    (codeBlockStep acc cb).started_at = acc.started_at ∧
    (codeBlockStep acc cb).last_active = acc.last_active := by
  simp only [codeBlockStep]
  repeat' split
  all_goals exact ⟨rfl, rfl⟩

theorem foldl_codeBlockStep_started (cbs : List CursorCodeBlock) (acc : CursorAcc) :
    (cbs.foldl codeBlockStep acc).started_at = acc.started_at ∧
    (cbs.foldl codeBlockStep acc).last_active = acc.last_active := by
  induction cbs generalizing acc with
  | nil => exact ⟨rfl, rfl⟩
  | cons cb cbs ih =>
    rw [List.foldl_cons]
    rw [(ih (codeBlockStep acc cb)).1, (ih (codeBlockStep acc cb)).2]
    exact codeBlockStep_started acc cb

theorem cursorCodeBlocksUpdate_started (acc : CursorAcc) (cBlocks : Option (List CursorCodeBlock)) :
    (cursorCodeBlocksUpdate acc cBlocks).started_at = acc.started_at ∧
    (cursorCodeBlocksUpdate acc cBlocks).last_active = acc.last_active := by
  cases cBlocks with
  | none => exact ⟨rfl, rfl⟩
  | some cbs => exact foldl_codeBlockStep_started cbs acc

theorem cursorAssistantStep_started (sid : Str) (acc : CursorAcc) (ts text : Str)
    (b : CursorBubble) (st et : Option ℚ) (acc' : CursorAcc)
    (hstep : cursorAssistantStep sid acc ts text b st et = some acc') :
    acc'.started_at = acc.started_at ∧ acc'.last_active = acc.last_active := by
  simp only [cursorAssistantStep] at hstep
  split at hstep
  · exact absurd hstep (by simp)
  · injection hstep with heq
    rw [← heq]
    rw [(CursorAcc_set_messages_ts _ _).1, (CursorAcc_set_messages_ts _ _).2,
      (cursorCodeBlocksUpdate_started _ _).1, (cursorCodeBlocksUpdate_started _ _).2,
      (cursorDurationUpdate_started _ _ _).1, (cursorDurationUpdate_started _ _ _).2,
      (cursorTokensUpdate_started _ _).1, (cursorTokensUpdate_started _ _).2]
    exact ⟨rfl, rfl⟩

theorem cursorStep_started (created : Str) (msToIso : ℚ → Str) (base : ℚ) (sid : Str)
    (acc : CursorAcc) (b : CursorBubble) (acc' : CursorAcc)
    (hstep : cursorStep created msToIso base sid acc b = some acc') :
    acc'.started_at = (cursorTsUpdate acc (cursorTsOf created msToIso base b)).started_at ∧
    acc'.last_active = (cursorTsUpdate acc (cursorTsOf created msToIso base b)).last_active := by
  simp only [cursorStep] at hstep
  split at hstep
  · injection hstep with heq
    rw [← heq]
    exact cursorUserStep_started _ _ _ _ _
  · split at hstep
    · exact cursorAssistantStep_started _ _ _ _ _ _ _ _ hstep
    · injection hstep with heq
      rw [← heq]
      exact ⟨rfl, rfl⟩

theorem cursorKept_cons (b : CursorBubble) (bs : List CursorBubble) (created : Str)
    (msToIso : ℚ → Str) (base : ℚ) :
    cursorKeptTimestamps (b :: bs) created msToIso base =
      (if cursorTsOf created msToIso base b = [] then cursorKeptTimestamps bs created msToIso base
       else cursorTsOf created msToIso base b :: cursorKeptTimestamps bs created msToIso base) := by
  simp only [cursorKeptTimestamps, List.filterMap_cons]
  by_cases h : cursorTsOf created msToIso base b = [] <;> simp [h]

theorem cursorFold_ts (created : Str) (msToIso : ℚ → Str) (base : ℚ) (sid : Str) :
    ∀ (bubbles : List CursorBubble) (acc res : CursorAcc),
      List.foldlM (cursorStep created msToIso base sid) acc bubbles = some res →
      (res.started_at =
        (if acc.started_at = [] then (cursorKeptTimestamps bubbles created msToIso base).headD []
         else acc.started_at) ∧
       res.last_active =
        (cursorKeptTimestamps bubbles created msToIso base).getLastD acc.last_active) := by
  intro bubbles
  induction bubbles with
  | nil =>
    intro acc res hfold
    simp only [List.foldlM] at hfold
    injection hfold with heq
    rw [← heq]
    by_cases h : acc.started_at = [] <;> simp [cursorKeptTimestamps, h]
  | cons b bs ih =>
    intro acc res hfold
    simp only [List.foldlM] at hfold
    cases hstep : cursorStep created msToIso base sid acc b with
    | none => rw [hstep] at hfold; exact absurd hfold (by simp)
    | some a' =>
      rw [hstep] at hfold
      have h1 := cursorStep_started created msToIso base sid acc b a' hstep
      have hts := cursorTsUpdate_started acc (cursorTsOf created msToIso base b)
      have h2 := ih a' res hfold
      rw [cursorKept_cons]
      rw [h2.1, h2.2, h1.1, h1.2, hts.1, hts.2]
      by_cases ht : cursorTsOf created msToIso base b = []
      · simp [ht]
      · have hlast : ∀ (x : Str) (xs : List Str) (d1 d2 : Str),
            (x :: xs).getLast?.getD d1 = (x :: xs).getLast?.getD d2 := by
          intro x xs d1 d2
          cases hgl : (x :: xs).getLast? with
          | none => simp [List.getLast?_eq_none_iff] at hgl
          | some v => simp
        by_cases hst : acc.started_at = [] <;>
          · simp [ht, hst]
            cases hkt : cursorKeptTimestamps bs created msToIso base with
            | nil => simp
            | cons x xs => exact hlast x xs _ _

theorem getLastD_mem : ∀ (xs : List Str) (d : Str), xs = [] ∨ xs.getLastD d ∈ xs := by
  intro xs
  induction xs with
  | nil => intro d; left; rfl
  | cons x t ih =>
    intro d
    right
    rw [List.getLastD_cons]
    rcases ih x with h | h
    · subst h; simp [List.getLastD]
    · exact List.mem_cons_of_mem x h

theorem cursorKept_ne_nil (bubbles : List CursorBubble) (created : Str) (msToIso : ℚ → Str)
    (base : ℚ) :
    ∀ x ∈ cursorKeptTimestamps bubbles created msToIso base, x ≠ [] := by
  intro x hx
  rcases List.mem_filterMap.mp hx with ⟨b, _, hb⟩
  by_cases h : cursorTsOf created msToIso base b = []
  · rw [if_pos h] at hb; cases hb
  · rw [if_neg h] at hb
    injection hb with hbe
    rw [← hbe]
    exact h

theorem cursor_started_le (bubbles : List CursorBubble)
    (sid pid created : Str) (msToIso : ℚ → Str) (base : ℚ) (s : ParsedSession)
    (h : build_parsed_session bubbles sid pid created msToIso base = some s)
    (hsorted : (cursorKeptTimestamps bubbles created msToIso base).Sorted
      (fun a b => strLe a b = true)) :
    strLe s.started_at s.last_active = true := by
  unfold build_parsed_session at h
  cases hfold : List.foldlM (cursorStep created msToIso base sid) cursorInit bubbles with
  | none => rw [hfold] at h; exact absurd h (by simp)
  | some a =>
    rw [hfold] at h
    injection h with heq
    rw [← heq]
    have hf := cursorFold_ts created msToIso base sid bubbles cursorInit a hfold
    show strLe (if a.started_at = [] then created else a.started_at)
      (if a.last_active = [] then created else a.last_active) = true
    rw [hf.1, hf.2]
    have hinit : cursorInit.started_at = [] := rfl
    rw [hinit]
    simp only [if_pos rfl, ite_true, reduceIte]
    cases hck : cursorKeptTimestamps bubbles created msToIso base with
    | nil =>
      show strLe (if ([] : Str) = [] then created else []) _ = true
      simp [List.getLastD]
      exact strLe_refl created
    | cons x xs =>
      have hx : x ≠ [] := cursorKept_ne_nil bubbles created msToIso base x
        (by rw [hck]; exact List.mem_cons_self x xs)
      have hlmem : (x :: xs).getLastD [] ∈ x :: xs := by
        rcases getLastD_mem (x :: xs) [] with hbad | hmem
        · cases hbad
        · exact hmem
      have hlne : (x :: xs).getLastD [] ≠ [] := cursorKept_ne_nil bubbles created msToIso base _
        (by rw [hck]; exact hlmem)
      have hlast : (x :: xs).getLastD cursorInit.last_active = (x :: xs).getLastD [] := rfl
      rw [hlast]
      simp only [List.headD_cons, if_neg hx, if_neg hlne]
      exact sorted_headD_le_getLastD (x :: xs) (by rw [← hck]; exact hsorted)

/-- C5, amended: `started_at <= last_active` (byte-wise string order) holds for
sessions of either normalizer PROVIDED the per-record non-empty timestamp
strings occur in nondecreasing order along the input; with out-of-order
timestamps the invariant fails (see the counterexample), because the first
pass takes `started_at` from the first and `last_active` from the last
timestamp in file order, without sorting. -/
theorem claim5_amended :
    (∀ (events : List RawEvent) (iter : List (RawEvent × Str) → List (RawEvent × Str))
        (sid pid : Str) (s : ParsedSession),
      parse_session_file events iter sid pid = some s →
      (keptTimestamps events).Sorted (fun a b => strLe a b = true) →
      strLe s.started_at s.last_active = true) ∧
    (∀ (bubbles : List CursorBubble) (sid pid created : Str) (msToIso : ℚ → Str) (base : ℚ)
        (s : ParsedSession),
      build_parsed_session bubbles sid pid created msToIso base = some s →
      (cursorKeptTimestamps bubbles created msToIso base).Sorted (fun a b => strLe a b = true) →
      strLe s.started_at s.last_active = true) :=
  ⟨claude_started_le, cursor_started_le⟩

/-- Witness for C5 on a log whose timestamps are in order. -/
theorem claim5_witness : strLe c1result.started_at c1result.last_active = true :=
  claim5_amended.1 c1events (fun l => l) (str "s") (str "p") c1result (by decide) (by decide)

-- C4: assistant deduplication by message id ---------------------------------

theorem scanCwd_partition (acc : ScanAcc) (e : RawEvent) :
    (scanCwd acc e).user_events = acc.user_events ∧
    (scanCwd acc e).assistant_by_id = acc.assistant_by_id ∧
    (scanCwd acc e).assistant_no_id = acc.assistant_no_id := by
  simp only [scanCwd]
  repeat' split
  all_goals exact ⟨rfl, rfl, rfl⟩

theorem scanTs_partition (acc : ScanAcc) (ts : Str) :
    (scanTs acc ts).user_events = acc.user_events ∧
    (scanTs acc ts).assistant_by_id = acc.assistant_by_id ∧
    (scanTs acc ts).assistant_no_id = acc.assistant_no_id := by
  simp only [scanTs]
  split <;> exact ⟨rfl, rfl, rfl⟩

theorem scanStep_assistant_with_id (acc : ScanAcc) (e : RawEvent) (m : RawMessage) (i : Str)
    (ht : e.event_type = str "assistant") (hm : e.message = some m)
    (hr : m.role = str "assistant") (hi : m.id = some i) :
    (scanStep acc e).user_events = acc.user_events ∧
    (scanStep acc e).assistant_by_id = assocInsert acc.assistant_by_id i (e, e.timestamp.getD []) ∧
    (scanStep acc e).assistant_no_id = acc.assistant_no_id := by
  simp only [scanStep]
  rw [if_neg (show ¬(SKIP_TYPES.contains e.event_type = true) by rw [ht]; decide)]
  rw [if_neg (show ¬(e.event_type = str "system") by rw [ht]; decide)]
  rw [if_neg (show ¬(e.event_type = str "user") by rw [ht]; decide)]
  simp only [checkAssistant, ht, hm, hr, hi, if_pos rfl]
  have hc := scanCwd_partition acc e
  have ht2 := scanTs_partition (scanCwd acc e) (e.timestamp.getD [])
  refine ⟨?_, ?_, ?_⟩
  · show (scanTs (scanCwd acc e) (e.timestamp.getD [])).user_events = acc.user_events
    rw [ht2.1, hc.1]
  · show assocInsert (scanTs (scanCwd acc e) (e.timestamp.getD [])).assistant_by_id i
      (e, e.timestamp.getD []) = _
    rw [ht2.2.1, hc.2.1]
  · show (scanTs (scanCwd acc e) (e.timestamp.getD [])).assistant_no_id = acc.assistant_no_id
    rw [ht2.2.2, hc.2.2]

theorem scanStep_assistant_no_id (acc : ScanAcc) (e : RawEvent) (m : RawMessage)
    (ht : e.event_type = str "assistant") (hm : e.message = some m)
    (hr : m.role = str "assistant") (hi : m.id = none) :
    (scanStep acc e).user_events = acc.user_events ∧
    (scanStep acc e).assistant_by_id = acc.assistant_by_id ∧
    (scanStep acc e).assistant_no_id = acc.assistant_no_id ++ [(e, e.timestamp.getD [])] := by
  simp only [scanStep]
  rw [if_neg (show ¬(SKIP_TYPES.contains e.event_type = true) by rw [ht]; decide)]
  rw [if_neg (show ¬(e.event_type = str "system") by rw [ht]; decide)]
  rw [if_neg (show ¬(e.event_type = str "user") by rw [ht]; decide)]
  simp only [checkAssistant, ht, hm, hr, hi, if_pos rfl]
  have hc := scanCwd_partition acc e
  have ht2 := scanTs_partition (scanCwd acc e) (e.timestamp.getD [])
  refine ⟨?_, ?_, ?_⟩
  · show (scanTs (scanCwd acc e) (e.timestamp.getD [])).user_events = acc.user_events
    rw [ht2.1, hc.1]
  · show (scanTs (scanCwd acc e) (e.timestamp.getD [])).assistant_by_id = acc.assistant_by_id
    rw [ht2.2.1, hc.2.1]
  · show (scanTs (scanCwd acc e) (e.timestamp.getD [])).assistant_no_id ++ _ = _
    rw [ht2.2.2, hc.2.2]

theorem BuildAcc_set_messages_rest (x : BuildAcc) (m : List ConversationMessage) :
    ({ x with messages := m } : BuildAcc).messages = m := rfl

theorem claudeModelUpdate_messages (acc : BuildAcc) (mdl : Option Str) :
    (claudeModelUpdate acc mdl).messages = acc.messages := by
  simp only [claudeModelUpdate]
  split
  · cases mdl <;> rfl
  · rfl

theorem claudeTokensUpdate_messages (acc : BuildAcc) (usage : Option TokenUsage) :
    (claudeTokensUpdate acc usage).messages = acc.messages := by
  cases usage <;> rfl

theorem blockStep_messages (acc : BuildAcc) (block : ContentBlock) :
    (blockStep acc block).messages = acc.messages := by
  simp only [blockStep]
  repeat' split
  all_goals rfl

theorem foldl_blockStep_messages (blocks : List ContentBlock) (acc : BuildAcc) :
    (blocks.foldl blockStep acc).messages = acc.messages := by
  induction blocks generalizing acc with
  | nil => rfl
  | cons blk blocks ih => rw [List.foldl_cons, ih, blockStep_messages]

theorem claudeBlocksUpdate_messages (acc : BuildAcc) (content : MessageContent) :
    (claudeBlocksUpdate acc content).messages = acc.messages := by
  cases content <;> first | rfl | exact foldl_blockStep_messages _ _

theorem claudeAssistantStep_messages (acc : BuildAcc) (t : TaggedEvent) (msg : RawMessage)
    (acc' : BuildAcc) (hstep : claudeAssistantStep acc t msg = some acc') :
    ∃ content, truncateContent (strip_html (extract_raw_text msg.content)) = some content ∧
      acc'.messages = acc.messages ++
        [⟨str "assistant", t.ts, t.event.uuid.getD [], msg.usage, rustTrim content⟩] := by
  simp only [claudeAssistantStep] at hstep
  split at hstep
  · exact absurd hstep (by simp)
  · next content heq2 =>
    injection hstep with heq
    refine ⟨content, heq2, ?_⟩
    rw [← heq, claudeBlocksUpdate_messages, claudeTokensUpdate_messages,
      claudeModelUpdate_messages]

theorem buildStep_msgCount (acc : BuildAcc) (t : TaggedEvent) (acc' : BuildAcc)
    (hstep : buildStep acc t = some acc') :
    acc'.messages.length = acc.messages.length + msgCountOf t := by
  simp only [buildStep] at hstep
  split at hstep
  · next hmsg =>
    injection hstep with heq
    rw [← heq]
    simp [msgCountOf, hmsg]
  · next msg hmsg =>
    split at hstep
    · injection hstep with heq
      rw [← heq]
      simp only [claudeUserStep, BuildAcc_set_messages_rest]
      simp [msgCountOf, hmsg]
      repeat' split
      all_goals simp
    · rcases claudeAssistantStep_messages acc t msg acc' hstep with ⟨content, _, hmsgs⟩
      rw [hmsgs]
      simp [msgCountOf, hmsg]

theorem buildFold_msgCount :
    ∀ (l : List TaggedEvent) (acc res : BuildAcc),
      List.foldlM buildStep acc l = some res →
      res.messages.length = acc.messages.length + (l.map msgCountOf).sum := by
  intro l
  induction l with
  | nil =>
    intro acc res hfold
    simp only [List.foldlM] at hfold
    injection hfold with heq
    rw [← heq]
    simp
  | cons t ts ih =>
    intro acc res hfold
    simp only [List.foldlM] at hfold
    cases hstep : buildStep acc t with
    | none => rw [hstep] at hfold; exact absurd hfold (by simp)
    | some a' =>
      rw [hstep] at hfold
      rw [ih a' res hfold, buildStep_msgCount acc t a' hstep]
      simp [List.sum_cons]
      omega

/-- C4: in a log with two assistant records sharing one message id, the
parsed session contains exactly one message for that id, taken from the later
record (last-write-wins): its timestamp, uuid, usage and (stripped, truncated,
trimmed) content all come from the second record.  Assistant records without
an id are all kept: two id-less records yield two messages. -/
theorem claim4_dedup :
    (∀ (e1 e2 : RawEvent) (m1 m2 : RawMessage) (i : Str)
        (iter : List (RawEvent × Str) → List (RawEvent × Str)) (sid pid : Str)
        (s : ParsedSession),
      (∀ l, (iter l).Perm l) →
      e1.event_type = str "assistant" → e1.message = some m1 →
      m1.role = str "assistant" → m1.id = some i →
      e2.event_type = str "assistant" → e2.message = some m2 →
      m2.role = str "assistant" → m2.id = some i →
      parse_session_file [e1, e2] iter sid pid = some s →
      s.messages.map (fun m => (m.role, m.timestamp, m.uuid, m.usage)) =
        [(str "assistant", e2.timestamp.getD [], e2.uuid.getD [], m2.usage)] ∧
      s.messages.map (fun m => m.content) =
        ((truncateContent (strip_html (extract_raw_text m2.content))).map rustTrim).toList) ∧
    (∀ (e1 e2 : RawEvent) (m1 m2 : RawMessage)
        (iter : List (RawEvent × Str) → List (RawEvent × Str)) (sid pid : Str)
        (s : ParsedSession),
      (∀ l, (iter l).Perm l) →
      e1.event_type = str "assistant" → e1.message = some m1 →
      m1.role = str "assistant" → m1.id = none →
      e2.event_type = str "assistant" → e2.message = some m2 →
      m2.role = str "assistant" → m2.id = none →
      parse_session_file [e1, e2] iter sid pid = some s →
      s.messages.length = 2) := by
  constructor
  · intro e1 e2 m1 m2 i iter sid pid s hiter h1t h1m h1r h1i h2t h2m h2r h2i h
    have hstep1 := scanStep_assistant_with_id scanInit e1 m1 i h1t h1m h1r h1i
    have hstep2 := scanStep_assistant_with_id (scanStep scanInit e1) e2 m2 i h2t h2m h2r h2i
    have hfold2 : [e1, e2].foldl scanStep scanInit = scanStep (scanStep scanInit e1) e2 := rfl
    have husers : ([e1, e2].foldl scanStep scanInit).user_events = [] := by
      rw [hfold2, hstep2.1, hstep1.1]
      rfl
    have hnoid : ([e1, e2].foldl scanStep scanInit).assistant_no_id = [] := by
      rw [hfold2, hstep2.2.2, hstep1.2.2]
      rfl
    have hbyid : ([e1, e2].foldl scanStep scanInit).assistant_by_id =
        [(i, (e2, e2.timestamp.getD []))] := by
      rw [hfold2, hstep2.2.1, hstep1.2.1]
      simp [assocInsert, scanInit]
    have htagged : taggedEvents [e1, e2] iter =
        [⟨.assistant, e2, e2.timestamp.getD []⟩] := by
      simp only [taggedEvents, husers, hnoid, hbyid]
      have hit := List.perm_singleton.mp (hiter [(e2, e2.timestamp.getD [])])
      simp [hit]
    have hsort : List.insertionSort tagLe [(⟨.assistant, e2, e2.timestamp.getD []⟩ : TaggedEvent)] =
        [⟨.assistant, e2, e2.timestamp.getD []⟩] := by
      simp [List.insertionSort, List.orderedInsert]
    simp only [parse_session_file, htagged, hsort] at h
    cases hbs : buildStep buildInit ⟨.assistant, e2, e2.timestamp.getD []⟩ with
    | none => simp [List.foldlM, hbs] at h
    | some b =>
      simp only [List.foldlM, hbs, Option.bind_eq_bind, Option.some_bind] at h
      simp only [buildStep, h2m] at hbs
      rcases claudeAssistantStep_messages buildInit _ m2 b hbs with ⟨content, htr, hmsgs⟩
      injection h with heq
      rw [← heq]
      show (b.messages.map _ = _) ∧ (b.messages.map _ = _)
      rw [hmsgs]
      simp [htr, buildInit]
  · intro e1 e2 m1 m2 iter sid pid s hiter h1t h1m h1r h1i h2t h2m h2r h2i h
    have hstep1 := scanStep_assistant_no_id scanInit e1 m1 h1t h1m h1r h1i
    have hstep2 := scanStep_assistant_no_id (scanStep scanInit e1) e2 m2 h2t h2m h2r h2i
    have hfold2 : [e1, e2].foldl scanStep scanInit = scanStep (scanStep scanInit e1) e2 := rfl
    have husers : ([e1, e2].foldl scanStep scanInit).user_events = [] := by
      rw [hfold2, hstep2.1, hstep1.1]
      rfl
    have hbyid : ([e1, e2].foldl scanStep scanInit).assistant_by_id = [] := by
      rw [hfold2, hstep2.2.1, hstep1.2.1]
      rfl
    have hnoid : ([e1, e2].foldl scanStep scanInit).assistant_no_id =
        [(e1, e1.timestamp.getD []), (e2, e2.timestamp.getD [])] := by
      rw [hfold2, hstep2.2.2, hstep1.2.2]
      rfl
    have htagged : taggedEvents [e1, e2] iter =
        [⟨.assistant, e1, e1.timestamp.getD []⟩, ⟨.assistant, e2, e2.timestamp.getD []⟩] := by
      simp only [taggedEvents, husers, hnoid, hbyid]
      have hit : iter [] = [] := List.Perm.eq_nil (hiter [])
      simp [hit]
    simp only [parse_session_file, htagged] at h
    cases hfold : List.foldlM buildStep buildInit
        (List.insertionSort tagLe
          [(⟨.assistant, e1, e1.timestamp.getD []⟩ : TaggedEvent),
           ⟨.assistant, e2, e2.timestamp.getD []⟩]) with
    | none => rw [hfold] at h; simp at h
    | some b =>
      rw [hfold] at h
      injection h with heq
      rw [← heq]
      show b.messages.length = 2
      have hcnt := buildFold_msgCount _ _ _ hfold
      have hperm := List.perm_insertionSort tagLe
        [(⟨.assistant, e1, e1.timestamp.getD []⟩ : TaggedEvent),
         ⟨.assistant, e2, e2.timestamp.getD []⟩]
      have hsum := (hperm.map msgCountOf).sum_eq
      rw [hcnt, hsum]
      simp [msgCountOf, h1m, h2m, buildInit]


/-- Witness for C4 at two concrete records sharing id `m1`. -/
theorem claim4_witness :
    c4result.messages.map (fun m => (m.role, m.timestamp, m.uuid, m.usage)) =
      [(str "assistant", (c4event "second").timestamp.getD [], (c4event "second").uuid.getD [],
        (c4msg "second").usage)] ∧
    c4result.messages.map (fun m => m.content) =
      ((truncateContent (strip_html (extract_raw_text (c4msg "second").content))).map
        rustTrim).toList :=
  claim4_dedup.1 (c4event "first") (c4event "second") (c4msg "first") (c4msg "second")
    (str "m1") (fun l => l) (str "s") (str "p") c4result (fun l => List.Perm.refl l)
    rfl rfl rfl rfl rfl rfl rfl rfl (by decide)

-- C8: two-run determinism ----------------------------------------------------

theorem sorted_perm_eq :
    ∀ (l1 l2 : List TaggedEvent), l1.Perm l2 →
      l1.Sorted tagLe → l2.Sorted tagLe →
      (l1.map (fun t => t.ts)).Nodup → l1 = l2 := by
  intro l1
  induction l1 with
  | nil =>
    intro l2 hp _ _ _
    exact hp.nil_eq
  | cons a t1 ih =>
    intro l2 hp hs1 hs2 hnd
    cases l2 with
    | nil => simpa using hp.length_eq
    | cons b t2 =>
      have hab : a = b := by
        by_contra hne
        have ha2 : a ∈ t2 := by
          rcases List.mem_cons.mp (hp.mem_iff.mp (List.mem_cons_self a t1)) with h | h
          · exact absurd h hne
          · exact h
        have hb1 : b ∈ t1 := by
          rcases List.mem_cons.mp (hp.mem_iff.mpr (List.mem_cons_self b t2)) with h | h
          · exact absurd h.symm hne
          · exact h
        have hle1 : tagLe a b := (List.sorted_cons.mp hs1).1 b hb1
        have hle2 : tagLe b a := (List.sorted_cons.mp hs2).1 a ha2
        have hts : a.ts = b.ts := strLe_antisymm hle1 hle2
        have hmem : a.ts ∈ t1.map (fun t => t.ts) := by
          rw [hts]
          exact List.mem_map_of_mem _ hb1
        exact (List.nodup_cons.mp hnd).1 hmem
      subst hab
      have hpt : t1.Perm t2 := hp.cons_inv
      rw [ih t2 hpt (List.sorted_cons.mp hs1).2 (List.sorted_cons.mp hs2).2
        (List.nodup_cons.mp hnd).2]

/-- C8, amended: parsing the same record list twice yields identical
`ParsedSession` values PROVIDED the kept records carry pairwise-distinct
timestamp strings.  Without that proviso the result can depend on the
`HashMap::into_values` iteration order of the deduplicated assistant records,
which differs between runs: two id-bearing assistant records with equal
timestamps may be emitted in either order (see the counterexample). -/
theorem claim8_amended (events : List RawEvent)
    (iter1 iter2 : List (RawEvent × Str) → List (RawEvent × Str)) (sid pid : Str)
    (h1 : ∀ l, (iter1 l).Perm l) (h2 : ∀ l, (iter2 l).Perm l)
    (hnodup : ((taggedEvents events (fun l => l)).map (fun t => t.ts)).Nodup) :
    parse_session_file events iter1 sid pid = parse_session_file events iter2 sid pid := by
  have hperm12 : (taggedEvents events iter1).Perm (taggedEvents events iter2) := by
    simp only [taggedEvents]
    apply List.Perm.append_left
    apply List.Perm.map
    apply List.Perm.append_right
    exact (h1 _).trans (h2 _).symm
  have hpc : (taggedEvents events iter1).Perm (taggedEvents events (fun l => l)) := by
    simp only [taggedEvents]
    apply List.Perm.append_left
    apply List.Perm.map
    apply List.Perm.append_right
    exact h1 _
  have hs1 := List.sorted_insertionSort tagLe (taggedEvents events iter1)
  have hs2 := List.sorted_insertionSort tagLe (taggedEvents events iter2)
  have hp12 : (List.insertionSort tagLe (taggedEvents events iter1)).Perm
      (List.insertionSort tagLe (taggedEvents events iter2)) :=
    (List.perm_insertionSort _ _).trans (hperm12.trans (List.perm_insertionSort _ _).symm)
  have hnodup1 : ((List.insertionSort tagLe (taggedEvents events iter1)).map
      (fun t => t.ts)).Nodup := by
    have h3 : ((taggedEvents events iter1).map (fun t => t.ts)).Nodup :=
      ((hpc.map _).nodup_iff).mpr hnodup
    exact (((List.perm_insertionSort tagLe _).map _).nodup_iff).mpr h3
  have heq := sorted_perm_eq _ _ hp12 hs1 hs2 hnodup1
  simp only [parse_session_file]
  rw [heq]

/-- Witness for C8 on a log with distinct timestamps, against the reversing
iteration order. -/
theorem claim8_witness :
    parse_session_file c1events (fun l => l) (str "s") (str "p") =
      parse_session_file c1events c8iterRev (str "s") (str "p") :=
  claim8_amended c1events (fun l => l) c8iterRev (str "s") (str "p")
    (fun l => List.Perm.refl l) (fun l => List.reverse_perm l) (by decide)
